import Mathlib

/-!
Shallow embedding of the zmodem2 crate (src/lib.rs) and verification of its
specification claims.

Modelling conventions:
* an octet is a `Nat`; the transport input is a finite `List Nat` (`Port`),
  and a read past its end models a failing transport read (`Error.Read`);
* reads thread the remaining input through every outcome, mirroring the
  `&mut impl Read` cursor of the source;
* writes are modelled as pure accumulation of the emitted bytes (the write
  side of the transport and the file sink never fail);
* `u8` values read from the port are truncated with `% 256`, mirroring the
  `u8` type of `read_byte`;
* `u32` arithmetic that can overflow (`state.count += …`, `offset += …`)
  is taken modulo `2 ^ 32`;
* the session scratch buffer (`state.buf`, a 1024-byte `ArrayVec`) is
  modelled by its live contents (the prefix holding meaningful data);
* loops whose iteration count is bounded by the remaining input length are
  written with a fuel argument instantiated to `port.length + 1` at the call
  site; every iteration consumes at least one input byte, so the fuel never
  runs out.
-/

set_option maxRecDepth 8000

namespace Zmodem

/-- Error codes of `zmodem2::send` and `zmodem2::receive`. -/
inductive Error where
  | Data
  | Read
  | Write
deriving DecidableEq

instance {ε α : Type} [DecidableEq ε] [DecidableEq α] : DecidableEq (Except ε α)
  | .error e, .error f =>
    if h : e = f then .isTrue (by rw [h]) else .isFalse (by simp [h])
  | .error _, .ok _ => .isFalse (by simp)
  | .ok _, .error _ => .isFalse (by simp)
  | .ok a, .ok b =>
    if h : a = b then .isTrue (by rw [h]) else .isFalse (by simp [h])

/-- The transport input stream: the bytes the peer will deliver, in order. -/
abbrev Port := List Nat

/-- Size of the unescaped subpacket payload buffer. -/
def BUFFER_SIZE : Nat := 1024

/-- Sync pad octet, the ASCII star. -/
def ZPAD : Nat := 0x2a

/-- Data-link escape octet. -/
def ZDLE : Nat := 0x18

/-- XON octet appended after most ZHEX headers. -/
def XON : Nat := 0x11

/-- Forward escape table of the source (`ZDLE_TABLE`): entry `b` is the byte
written for input `b`, preceded by `ZDLE` whenever it differs from `b`. -/
def ZDLE_TABLE : List Nat := [
  0x00, 0x01, 0x02, 0x03, 0x04, 0x05, 0x06, 0x07, 0x08, 0x09, 0x0a, 0x0b, 0x0c, 0x4d, 0x0e, 0x0f,
  0x50, 0x51, 0x12, 0x53, 0x14, 0x15, 0x16, 0x17, 0x58, 0x19, 0x1a, 0x1b, 0x1c, 0x1d, 0x1e, 0x1f,
  0x20, 0x21, 0x22, 0x23, 0x24, 0x25, 0x26, 0x27, 0x28, 0x29, 0x2a, 0x2b, 0x2c, 0x2d, 0x2e, 0x2f,
  0x30, 0x31, 0x32, 0x33, 0x34, 0x35, 0x36, 0x37, 0x38, 0x39, 0x3a, 0x3b, 0x3c, 0x3d, 0x3e, 0x3f,
  0x40, 0x41, 0x42, 0x43, 0x44, 0x45, 0x46, 0x47, 0x48, 0x49, 0x4a, 0x4b, 0x4c, 0x4d, 0x4e, 0x4f,
  0x50, 0x51, 0x52, 0x53, 0x54, 0x55, 0x56, 0x57, 0x58, 0x59, 0x5a, 0x5b, 0x5c, 0x5d, 0x5e, 0x5f,
  0x60, 0x61, 0x62, 0x63, 0x64, 0x65, 0x66, 0x67, 0x68, 0x69, 0x6a, 0x6b, 0x6c, 0x6d, 0x6e, 0x6f,
  0x70, 0x71, 0x72, 0x73, 0x74, 0x75, 0x76, 0x77, 0x78, 0x79, 0x7a, 0x7b, 0x7c, 0x7d, 0x7e, 0x6c,
  0x80, 0x81, 0x82, 0x83, 0x84, 0x85, 0x86, 0x87, 0x88, 0x89, 0x8a, 0x8b, 0x8c, 0xcd, 0x8e, 0x8f,
  0xd0, 0xd1, 0x92, 0xd3, 0x94, 0x95, 0x96, 0x97, 0x98, 0x99, 0x9a, 0x9b, 0x9c, 0x9d, 0x9e, 0x9f,
  0xa0, 0xa1, 0xa2, 0xa3, 0xa4, 0xa5, 0xa6, 0xa7, 0xa8, 0xa9, 0xaa, 0xab, 0xac, 0xad, 0xae, 0xaf,
  0xb0, 0xb1, 0xb2, 0xb3, 0xb4, 0xb5, 0xb6, 0xb7, 0xb8, 0xb9, 0xba, 0xbb, 0xbc, 0xbd, 0xbe, 0xbf,
  0xc0, 0xc1, 0xc2, 0xc3, 0xc4, 0xc5, 0xc6, 0xc7, 0xc8, 0xc9, 0xca, 0xcb, 0xcc, 0xcd, 0xce, 0xcf,
  0xd0, 0xd1, 0xd2, 0xd3, 0xd4, 0xd5, 0xd6, 0xd7, 0xd8, 0xd9, 0xda, 0xdb, 0xdc, 0xdd, 0xde, 0xdf,
  0xe0, 0xe1, 0xe2, 0xe3, 0xe4, 0xe5, 0xe6, 0xe7, 0xe8, 0xe9, 0xea, 0xeb, 0xec, 0xed, 0xee, 0xef,
  0xf0, 0xf1, 0xf2, 0xf3, 0xf4, 0xf5, 0xf6, 0xf7, 0xf8, 0xf9, 0xfa, 0xfb, 0xfc, 0xfd, 0xfe, 0x6d]

/-- Reverse escape table of the source (`UNZDLE_TABLE`): entry `x` is the
octet recovered from the byte `x` that follows a `ZDLE`. -/
def UNZDLE_TABLE : List Nat := [
  0x00, 0x01, 0x02, 0x03, 0x04, 0x05, 0x06, 0x07, 0x08, 0x09, 0x0a, 0x0b, 0x0c, 0x0d, 0x0e, 0x0f,
  0x10, 0x11, 0x12, 0x13, 0x14, 0x15, 0x16, 0x17, 0x18, 0x19, 0x1a, 0x1b, 0x1c, 0x1d, 0x1e, 0x1f,
  0x20, 0x21, 0x22, 0x23, 0x24, 0x25, 0x26, 0x27, 0x28, 0x29, 0x2a, 0x2b, 0x2c, 0x2d, 0x2e, 0x2f,
  0x30, 0x31, 0x32, 0x33, 0x34, 0x35, 0x36, 0x37, 0x38, 0x39, 0x3a, 0x3b, 0x3c, 0x3d, 0x3e, 0x3f,
  0x00, 0x01, 0x02, 0x03, 0x04, 0x05, 0x06, 0x07, 0x08, 0x09, 0x0a, 0x0b, 0x0c, 0x0d, 0x0e, 0x0f,
  0x10, 0x11, 0x12, 0x13, 0x14, 0x15, 0x16, 0x17, 0x18, 0x19, 0x1a, 0x1b, 0x1c, 0x1d, 0x1e, 0x1f,
  0x60, 0x61, 0x62, 0x63, 0x64, 0x65, 0x66, 0x67, 0x68, 0x69, 0x6a, 0x6b, 0x7f, 0xff, 0x6e, 0x6f,
  0x70, 0x71, 0x72, 0x73, 0x74, 0x75, 0x76, 0x77, 0x78, 0x79, 0x7a, 0x7b, 0x7c, 0x7d, 0x7e, 0x7f,
  0x80, 0x81, 0x82, 0x83, 0x84, 0x85, 0x86, 0x87, 0x88, 0x89, 0x8a, 0x8b, 0x8c, 0x8d, 0x8e, 0x8f,
  0x90, 0x91, 0x92, 0x93, 0x94, 0x95, 0x96, 0x97, 0x98, 0x99, 0x9a, 0x9b, 0x9c, 0x9d, 0x9e, 0x9f,
  0xa0, 0xa1, 0xa2, 0xa3, 0xa4, 0xa5, 0xa6, 0xa7, 0xa8, 0xa9, 0xaa, 0xab, 0xac, 0xad, 0xae, 0xaf,
  0xb0, 0xb1, 0xb2, 0xb3, 0xb4, 0xb5, 0xb6, 0xb7, 0xb8, 0xb9, 0xba, 0xbb, 0xbc, 0xbd, 0xbe, 0xbf,
  0x80, 0x81, 0x82, 0x83, 0x84, 0x85, 0x86, 0x87, 0x88, 0x89, 0x8a, 0x8b, 0x8c, 0x8d, 0x8e, 0x8f,
  0x90, 0x91, 0x92, 0x93, 0x94, 0x95, 0x96, 0x97, 0x98, 0x99, 0x9a, 0x9b, 0x9c, 0x9d, 0x9e, 0x9f,
  0xe0, 0xe1, 0xe2, 0xe3, 0xe4, 0xe5, 0xe6, 0xe7, 0xe8, 0xe9, 0xea, 0xeb, 0xec, 0xed, 0xee, 0xef,
  0xf0, 0xf1, 0xf2, 0xf3, 0xf4, 0xf5, 0xf6, 0xf7, 0xf8, 0xf9, 0xfa, 0xfb, 0xfc, 0xfd, 0xfe, 0xff]

/-- Forward table lookup, `ZDLE_TABLE[b]`. -/
def zdleOf (b : Nat) : Nat := ZDLE_TABLE.getD b 0

/-- Reverse table lookup, `UNZDLE_TABLE[b]`. -/
def unzdleOf (b : Nat) : Nat := UNZDLE_TABLE.getD b 0

/-- Frame encodings (`Encoding`), with their wire bytes in `Encoding.toByte`. -/
inductive Encoding where
  | ZBIN
  | ZHEX
  | ZBIN32
deriving DecidableEq

/-- The wire byte of an encoding (`Encoding as u8`). -/
def Encoding.toByte : Encoding → Nat
  | .ZBIN => 0x41
  | .ZHEX => 0x42
  | .ZBIN32 => 0x43

/-- `Encoding::try_from(u8)`: the inverse of `Encoding.toByte`, `Data` on any
other byte. -/
def encodingFromByte (b : Nat) : Except Error Encoding :=
  if b = 0x41 then .ok .ZBIN
  else if b = 0x42 then .ok .ZHEX
  else if b = 0x43 then .ok .ZBIN32
  else .error .Data

/-- Frame types (`Frame`), values 0 through 19. -/
inductive Frame where
  | ZRQINIT
  | ZRINIT
  | ZSINIT
  | ZACK
  | ZFILE
  | ZSKIP
  | ZNAK
  | ZABORT
  | ZFIN
  | ZRPOS
  | ZDATA
  | ZEOF
  | ZFERR
  | ZCRC
  | ZCHALLENGE
  | ZCOMPL
  | ZCAN
  | ZFREECNT
  | ZCOMMAND
  | ZSTDERR
deriving DecidableEq

/-- The wire byte of a frame type (`Frame as u8`). -/
def Frame.toByte : Frame → Nat
  | .ZRQINIT => 0
  | .ZRINIT => 1
  | .ZSINIT => 2
  | .ZACK => 3
  | .ZFILE => 4
  | .ZSKIP => 5
  | .ZNAK => 6
  | .ZABORT => 7
  | .ZFIN => 8
  | .ZRPOS => 9
  | .ZDATA => 10
  | .ZEOF => 11
  | .ZFERR => 12
  | .ZCRC => 13
  | .ZCHALLENGE => 14
  | .ZCOMPL => 15
  | .ZCAN => 16
  | .ZFREECNT => 17
  | .ZCOMMAND => 18
  | .ZSTDERR => 19

/-- `Frame::try_from(u8)`: inverse of `Frame.toByte`, `Data` otherwise. -/
def frameFromByte (b : Nat) : Except Error Frame :=
  match b with
  | 0 => .ok .ZRQINIT
  | 1 => .ok .ZRINIT
  | 2 => .ok .ZSINIT
  | 3 => .ok .ZACK
  | 4 => .ok .ZFILE
  | 5 => .ok .ZSKIP
  | 6 => .ok .ZNAK
  | 7 => .ok .ZABORT
  | 8 => .ok .ZFIN
  | 9 => .ok .ZRPOS
  | 10 => .ok .ZDATA
  | 11 => .ok .ZEOF
  | 12 => .ok .ZFERR
  | 13 => .ok .ZCRC
  | 14 => .ok .ZCHALLENGE
  | 15 => .ok .ZCOMPL
  | 16 => .ok .ZCAN
  | 17 => .ok .ZFREECNT
  | 18 => .ok .ZCOMMAND
  | 19 => .ok .ZSTDERR
  | _ => .error .Data

/-- Subpacket terminators (`Packet`). -/
inductive Packet where
  | ZCRCE
  | ZCRCG
  | ZCRCQ
  | ZCRCW
deriving DecidableEq

/-- The wire byte of a terminator (`Packet as u8`). -/
def Packet.toByte : Packet → Nat
  | .ZCRCE => 0x68
  | .ZCRCG => 0x69
  | .ZCRCQ => 0x6a
  | .ZCRCW => 0x6b

/-- `Packet::try_from(u8)` as an `Option`: `some` exactly on the four
terminator bytes. -/
def packetFromByte (b : Nat) : Option Packet :=
  if b = 0x68 then some .ZCRCE
  else if b = 0x69 then some .ZCRCG
  else if b = 0x6a then some .ZCRCQ
  else if b = 0x6b then some .ZCRCW
  else none

/-- `ZRINIT` capability flags (bitflags `Zrinit`). -/
def CANFDX : Nat := 0x01

/-- Can receive data in parallel with disk I/O. -/
def CANOVIO : Nat := 0x02

/-- Can use 32-bit frame check. -/
def CANFC32 : Nat := 0x20

/-- Session stages. -/
inductive Stage where
  | Waiting
  | Ready
  | InProgress
  | Done
deriving DecidableEq

/-- Numeric rank of a stage, in declaration order. -/
def Stage.rank : Stage → Nat
  | .Waiting => 0
  | .Ready => 1
  | .InProgress => 2
  | .Done => 3

/-- Send or receive transmission state (`State`); the scratch buffer is
modelled by its live contents. -/
structure State where
  stage : Stage
  count : Nat
  fileName : List Nat
  fileSize : Nat
  buf : List Nat
deriving DecidableEq

/-- `State::new()`. -/
def State.new : State :=
  { stage := .Waiting, count := 0, fileName := [], fileSize := 0, buf := [] }

/-- Apply a function eight times: one CRC round per bit of a byte. -/
def iter8 (f : Nat → Nat) (c : Nat) : Nat :=
  f (f (f (f (f (f (f (f c)))))))

/-- One bit round of CRC-16/XMODEM (poly 0x1021, MSB first). -/
def crc16Round (c : Nat) : Nat :=
  let c2 := (c <<< 1) &&& 0xffff
  if c &&& 0x8000 = 0 then c2 else c2 ^^^ 0x1021

/-- Absorb one byte into a CRC-16/XMODEM state. -/
def crc16Update (c b : Nat) : Nat :=
  iter8 crc16Round (c ^^^ ((b &&& 0xff) <<< 8))

/-- CRC-16/XMODEM of a byte list (init 0, no reflection, no xorout). -/
def crc16 (l : List Nat) : Nat := l.foldl crc16Update 0

/-- One bit round of CRC-32/ISO-HDLC (reflected, poly 0xEDB88320). -/
def crc32Round (c : Nat) : Nat :=
  if c &&& 1 = 0 then c >>> 1 else (c >>> 1) ^^^ 0xedb88320

/-- Absorb one byte into a CRC-32/ISO-HDLC state. -/
def crc32Update (c b : Nat) : Nat :=
  iter8 crc32Round (c ^^^ (b &&& 0xff))

/-- CRC-32/ISO-HDLC of a byte list (init and xorout 0xFFFFFFFF). -/
def crc32 (l : List Nat) : Nat :=
  (l.foldl crc32Update 0xffffffff) ^^^ 0xffffffff

/-- The two big-endian bytes of a 16-bit value (`to_be_bytes`). -/
def toBE2 (v : Nat) : List Nat := [(v / 256) % 256, v % 256]

/-- The four little-endian bytes of a 32-bit value (`to_le_bytes`). -/
def toLE4 (v : Nat) : List Nat :=
  [v % 256, (v / 256) % 256, (v / 65536) % 256, (v / 16777216) % 256]

/-- `make_crc`: CRC bytes over `data` — CRC-32 little-endian for `ZBIN32`,
CRC-16 big-endian otherwise. -/
def makeCrc (data : List Nat) (encoding : Encoding) : List Nat :=
  if encoding = .ZBIN32 then toLE4 (crc32 data) else toBE2 (crc16 data)

/-- `check_crc`: compare received CRC bytes against `makeCrc` of the data. -/
def checkCrc (data crc : List Nat) (encoding : Encoding) : Except Error Unit :=
  if crc = makeCrc data encoding then .ok () else .error .Data

/-- Number of CRC bytes that follow a subpacket terminator. -/
def crcLen (encoding : Encoding) : Nat :=
  if encoding = .ZBIN32 then 4 else 2

/-- `write_byte_escaped`: the bytes emitted for one octet — `ZDLE` plus the
table entry when the table changes the octet, the octet alone otherwise. -/
def writeByteEscaped (value : Nat) : List Nat :=
  let escaped := zdleOf value
  if escaped ≠ value then [ZDLE, escaped] else [escaped]

/-- `write_slice_escaped`: concatenation of the escaped forms. -/
def escapeList : List Nat → List Nat
  | [] => []
  | b :: t => writeByteEscaped b ++ escapeList t

/-- `read_byte_unescaped`: read one byte; on `ZDLE` read a second byte and
translate it through the reverse table. -/
def readByteUnescaped : Port → (Except Error Nat) × Port
  | [] => (.error .Read, [])
  | b :: rest =>
    if b % 256 = ZDLE then
      match rest with
      | [] => (.error .Read, [])
      | c :: rest2 => (.ok (unzdleOf (c % 256)), rest2)
    else (.ok (b % 256), rest)

/-- Read exactly `n` unescaped bytes. -/
def readExactUnescaped : Nat → Port → (Except Error (List Nat)) × Port
  | 0, port => (.ok [], port)
  | n + 1, port =>
    match readByteUnescaped port with
    | (.ok b, port') =>
      match readExactUnescaped n port' with
      | (.ok l, port'') => (.ok (b :: l), port'')
      | (.error e, port'') => (.error e, port'')
    | (.error e, port') => (.error e, port')

/-- Lowercase ASCII hex digit of a value below 16. -/
def hexDigitChar (x : Nat) : Nat :=
  if x < 10 then 0x30 + x else 0x57 + x

/-- `hex::encode_to_slice`: two lowercase hex digits per byte. -/
def hexEncode : List Nat → List Nat
  | [] => []
  | b :: t => hexDigitChar (b / 16) :: hexDigitChar (b % 16) :: hexEncode t

/-- Value of one ASCII hex digit (the `hex` crate accepts both cases). -/
def hexVal (c : Nat) : Option Nat :=
  if 0x30 ≤ c ∧ c ≤ 0x39 then some (c - 0x30)
  else if 0x61 ≤ c ∧ c ≤ 0x66 then some (c - 0x57)
  else if 0x41 ≤ c ∧ c ≤ 0x46 then some (c - 0x37)
  else none

/-- `hex::decode_to_slice`: pairs of hex digits to bytes, `Data` on an odd
length or an invalid digit. -/
def hexDecode : List Nat → Except Error (List Nat)
  | [] => .ok []
  | [_] => .error .Data
  | c :: d :: t =>
    match hexVal c, hexVal d, hexDecode t with
    | some hi, some lo, .ok r => .ok ((hi * 16 + lo) :: r)
    | _, _, _ => .error .Data

/-- A ZMODEM protocol header (`Header`): encoding, frame type and the four
flag bytes. -/
structure Header where
  encoding : Encoding
  frame : Frame
  flags : List Nat
deriving DecidableEq

/-- `Header::count()`: the flags interpreted as a little-endian 32-bit
value. -/
def Header.count (h : Header) : Nat :=
  h.flags.getD 0 0 + 256 * (h.flags.getD 1 0 + 256 * (h.flags.getD 2 0 + 256 * h.flags.getD 3 0))

/-- `Header::with_count`: same encoding and frame, flags replaced by the
little-endian bytes of `count`. -/
def Header.withCount (h : Header) (count : Nat) : Header :=
  ⟨h.encoding, h.frame, toLE4 count⟩

/-- `Header::unescaped_size`: serialized size before escaping (the struct is
six bytes: one encoding, one frame, four flags). -/
def unescapedSize : Encoding → Nat
  | .ZBIN => 6 + 2
  | .ZBIN32 => 6 + 4
  | .ZHEX => (6 + 2) * 2 - 1

/-- `Header::write`: the bytes a header puts on the wire, or `Data` when the
hex staging buffer would overflow. -/
def headerWrite (h : Header) : Except Error (List Nat) :=
  let out0 := h.frame.toByte :: h.flags
  let out1 := out0 ++ makeCrc out0 h.encoding
  let pre := (if h.encoding = .ZHEX then [ZPAD, ZPAD] else [ZPAD]) ++ [ZDLE, h.encoding.toByte]
  if h.encoding = .ZHEX then
    if 32 < out1.length * 2 then .error .Data
    else
      .ok (pre ++ escapeList (hexEncode out1) ++ [0x0d, 0x0a] ++
        (if h.frame ≠ .ZACK ∧ h.frame ≠ .ZFIN then [XON] else []))
  else .ok (pre ++ escapeList out1)

/-- `Header::read`: parse a header from the port, after the caller consumed
the `ZPAD (ZPAD) ZDLE` prefix. -/
def headerRead (port : Port) : (Except Error Header) × Port :=
  match port with
  | [] => (.error .Read, [])
  | b :: rest =>
    match encodingFromByte (b % 256) with
    | .error e => (.error e, rest)
    | .ok encoding =>
      match readExactUnescaped (unescapedSize encoding - 1) rest with
      | (.error e, port') => (.error e, port')
      | (.ok outHex, port') =>
        match (if encoding = .ZHEX then hexDecode outHex else .ok outHex) with
        | .error e => (.error e, port')
        | .ok out =>
          match checkCrc (out.take 5) (out.drop 5) encoding with
          | .error e => (.error e, port')
          | .ok _ =>
            match frameFromByte (out.getD 0 0) with
            | .error e => (.error e, port')
            | .ok frame => (.ok ⟨encoding, frame, (out.drop 1).take 4⟩, port')

/-- `read_zpad`: skip the `ZPAD (ZPAD) ZDLE` alignment sequence. -/
def readZpad (port : Port) : (Except Error Unit) × Port :=
  match port with
  | [] => (.error .Read, [])
  | b :: rest =>
    if b % 256 ≠ ZPAD then (.error .Data, rest)
    else
      match rest with
      | [] => (.error .Read, [])
      | c :: rest2 =>
        if c % 256 = ZPAD then
          match rest2 with
          | [] => (.error .Read, [])
          | d :: rest3 =>
            if d % 256 = ZDLE then (.ok (), rest3) else (.error .Data, rest3)
        else if c % 256 = ZDLE then (.ok (), rest2) else (.error .Data, rest2)

/-- `ZACK_HEADER`. -/
def zackHeader : Header := ⟨.ZHEX, .ZACK, [0, 0, 0, 0]⟩

/-- `ZDATA_HEADER`. -/
def zdataHeader : Header := ⟨.ZBIN32, .ZDATA, [0, 0, 0, 0]⟩

/-- `ZEOF_HEADER`. -/
def zeofHeader : Header := ⟨.ZBIN32, .ZEOF, [0, 0, 0, 0]⟩

/-- `ZFIN_HEADER`. -/
def zfinHeader : Header := ⟨.ZHEX, .ZFIN, [0, 0, 0, 0]⟩

/-- `ZNAK_HEADER`. -/
def znakHeader : Header := ⟨.ZHEX, .ZNAK, [0, 0, 0, 0]⟩

/-- `ZRPOS_HEADER`. -/
def zrposHeader : Header := ⟨.ZHEX, .ZRPOS, [0, 0, 0, 0]⟩

/-- `ZRQINIT_HEADER`. -/
def zrqinitHeader : Header := ⟨.ZHEX, .ZRQINIT, [0, 0, 0, 0]⟩

/-- `write_zrinit`: the ZRINIT greeting of the receiver; the capability bits
sit in the fourth flag byte, exactly as the source builds the array. -/
def writeZrinit : Except Error (List Nat) :=
  headerWrite ⟨.ZHEX, .ZRINIT, [0, 0, 0, CANFDX ||| CANOVIO ||| CANFC32]⟩

/-- Inner-loop outcome of `read_subpacket`: either the payload overflowed and
the tail was skipped, or a terminator ended the payload normally. -/
inductive SubAux where
  | overflow (packet : Packet)
  | finished (packet : Packet)
deriving DecidableEq

/-- Body of the `loop` in `skip_subpacket_tail`: discard bytes until a `ZDLE`
followed by a terminator byte. -/
def skipTailLoop : Port → (Except Error Packet) × Port
  | [] => (.error .Read, [])
  | b :: rest =>
    if b % 256 = ZDLE then
      match rest with
      | [] => (.error .Read, [])
      | c :: rest2 =>
        match packetFromByte (c % 256) with
        | some p => (.ok p, rest2)
        | none => skipTailLoop rest2
    else skipTailLoop rest

/-- `skip_subpacket_tail`: discard until a terminator, then discard the CRC
bytes without validating them. -/
def skipSubpacketTail (encoding : Encoding) (port : Port) : (Except Error Packet) × Port :=
  match skipTailLoop port with
  | (.ok p, port') =>
    match readExactUnescaped (crcLen encoding) port' with
    | (.ok _, port'') => (.ok p, port'')
    | (.error e, port'') => (.error e, port'')
  | (.error e, port') => (.error e, port')

/-- The `loop` of `read_subpacket`: accumulate unescaped payload bytes in
`buf` until a `ZDLE`-terminator pair, switching to tail-skipping when the
buffer reaches its 1024-byte capacity. The returned list is the buffer
contents at exit. -/
def readSubpacketAux (encoding : Encoding) (buf : List Nat) :
    Port → (Except Error SubAux) × List Nat × Port
  | [] => (.error .Read, buf, [])
  | b :: rest =>
    if b % 256 = ZDLE then
      match rest with
      | [] => (.error .Read, buf, [])
      | c :: rest2 =>
        match packetFromByte (c % 256) with
        | some p => (.ok (.finished p), buf ++ [c % 256], rest2)
        | none =>
          let buf2 := buf ++ [unzdleOf (c % 256)]
          if buf2.length = BUFFER_SIZE then
            match skipSubpacketTail encoding rest2 with
            | (.ok p, port') => (.ok (.overflow p), [], port')
            | (.error e, port') => (.error e, buf2, port')
          else readSubpacketAux encoding buf2 rest2
    else
      let buf2 := buf ++ [b % 256]
      if buf2.length = BUFFER_SIZE then
        match skipSubpacketTail encoding rest with
        | (.ok p, port') => (.ok (.overflow p), [], port')
        | (.error e, port') => (.error e, buf2, port')
      else readSubpacketAux encoding buf2 rest

/-- `read_subpacket`: result, final buffer contents (the payload on success),
and the remaining input. -/
def readSubpacket (encoding : Encoding) (port : Port) :
    (Except Error Packet) × List Nat × Port :=
  match readSubpacketAux encoding [] port with
  | (.ok (.overflow p), b, port') => (.ok p, b, port')
  | (.ok (.finished p), b, port') =>
    match readExactUnescaped (crcLen encoding) port' with
    | (.ok crc, port'') =>
      match checkCrc b crc encoding with
      | .ok _ => (.ok p, b.dropLast, port'')
      | .error e => (.error e, b, port'')
    | (.error e, port'') => (.error e, b, port'')
  | (.error e, b, port') => (.error e, b, port')

/-- `write_subpacket`: escaped payload, raw `ZDLE` terminator pair, escaped
CRC over payload-plus-terminator. The `ZHEX` arm is `unimplemented!()` in the
source (a panic), modelled as `none`; every call site passes `ZBIN32`. -/
def writeSubpacket (encoding : Encoding) (kind : Packet) (data : List Nat) :
    Option (List Nat) :=
  match encoding with
  | .ZHEX => none
  | .ZBIN32 =>
    some (escapeList data ++ [ZDLE, kind.toByte] ++
      escapeList (toLE4 (crc32 (data ++ [kind.toByte]))))
  | .ZBIN =>
    some (escapeList data ++ [ZDLE, kind.toByte] ++
      escapeList (toBE2 (crc16 (data ++ [kind.toByte]))))

/-- Whether a byte is a UTF-8 continuation byte. -/
def utf8Cont (b : Nat) : Bool := 0x80 ≤ b ∧ b ≤ 0xbf

/-- `core::str::from_utf8` validity of a byte list. -/
def isValidUtf8 : List Nat → Bool
  | [] => true
  | b :: r =>
    if b ≤ 0x7f then isValidUtf8 r
    else if b < 0xc2 then false
    else if b ≤ 0xdf then
      match r with
      | c :: r2 => utf8Cont c && isValidUtf8 r2
      | [] => false
    else if b ≤ 0xef then
      match r with
      | c :: d :: r2 =>
        (if b = 0xe0 then decide (0xa0 ≤ c ∧ c ≤ 0xbf)
         else if b = 0xed then decide (0x80 ≤ c ∧ c ≤ 0x9f)
         else utf8Cont c) && utf8Cont d && isValidUtf8 r2
      | _ => false
    else if b ≤ 0xf4 then
      match r with
      | c :: d :: e :: r2 =>
        (if b = 0xf0 then decide (0x90 ≤ c ∧ c ≤ 0xbf)
         else if b = 0xf4 then decide (0x80 ≤ c ∧ c ≤ 0x8f)
         else utf8Cont c) && utf8Cont d && utf8Cont e && isValidUtf8 r2
      | _ => false
    else false

/-- `str::split('\0')` on the payload bytes: the list of NUL-separated
fields. -/
def splitNul : List Nat → List (List Nat)
  | [] => [[]]
  | b :: t =>
    if b = 0 then [] :: splitNul t
    else
      match splitNul t with
      | f :: fs => (b :: f) :: fs
      | [] => [[b]]

/-- Whether a byte is ASCII whitespace (`u8::is_ascii_whitespace`). -/
def isAsciiWs (b : Nat) : Bool :=
  b = 0x20 ∨ b = 0x09 ∨ b = 0x0a ∨ b = 0x0c ∨ b = 0x0d

/-- Value of a nonempty all-digit ASCII string, `none` otherwise. -/
def parseDigits : List Nat → Option Nat
  | [] => none
  | l => parseDigitsAux l 0
where
  /-- Fold the digits left to right. -/
  parseDigitsAux : List Nat → Nat → Option Nat
    | [], acc => some acc
    | c :: t, acc =>
      if 0x30 ≤ c ∧ c ≤ 0x39 then parseDigitsAux t (acc * 10 + (c - 0x30))
      else none

/-- `u32::from_str`: optional leading plus sign, then decimal digits, value
below `2 ^ 32`. -/
def parseU32 (l : List Nat) : Option Nat :=
  let l := match l with
    | 0x2b :: r => r
    | _ => l
  match parseDigits l with
  | some v => if v < 4294967296 then some v else none
  | none => none

/-- Result of one receive turn (or of one of its sub-steps): outcome, updated
session state, remaining transport input, bytes written to the transport, and
bytes written to the file sink. -/
structure RecvResult where
  result : Except Error Unit
  state : State
  port : Port
  out : List Nat
  fileOut : List Nat
deriving DecidableEq

/-- `read_zfile`: read the subpacket attached to a `ZFILE` header and latch
the advertised file name and size into the state. -/
def readZfile (encoding : Encoding) (st : State) (port : Port) : RecvResult :=
  match readSubpacket encoding port with
  | (.ok _, payload, port') =>
    let st1 : State := { st with buf := payload }
    if isValidUtf8 payload then
      let fields := splitNul payload
      let name := fields.getD 0 []
      if 256 < name.length then ⟨.error .Data, st1, port', [], []⟩
      else
        let st2 : State := { st1 with fileName := name }
        match fields.drop 1 with
        | [] =>
          match headerWrite (zrposHeader.withCount 0) with
          | .ok z => ⟨.ok (), st2, port', z, []⟩
          | .error e => ⟨.error e, st2, port', [], []⟩
        | f1 :: _ =>
          match f1.dropWhile isAsciiWs with
          | [] =>
            match headerWrite (zrposHeader.withCount 0) with
            | .ok z => ⟨.ok (), st2, port', z, []⟩
            | .error e => ⟨.error e, st2, port', [], []⟩
          | c :: t =>
            match parseU32 ((c :: t).takeWhile (fun b => ¬ isAsciiWs b)) with
            | none => ⟨.error .Data, st2, port', [], []⟩
            | some v =>
              let st3 : State := { st2 with fileSize := v }
              match headerWrite (zrposHeader.withCount 0) with
              | .ok z => ⟨.ok (), st3, port', z, []⟩
              | .error e => ⟨.error e, st3, port', [], []⟩
    else ⟨.error .Data, st1, port', [], []⟩
  | (.error _, b, port') =>
    match headerWrite znakHeader with
    | .ok z => ⟨.ok (), { st with buf := b }, port', z, []⟩
    | .error _ => ⟨.error .Data, { st with buf := b }, port', [], []⟩

/-- The `loop` of `read_zdata`: stream subpackets into the file sink,
advancing `state.count`. The fuel is instantiated with `port.length + 1`;
every iteration consumes at least one input byte. -/
def readZdata (fuel : Nat) (encoding : Encoding) (st : State) (port : Port) : RecvResult :=
  match fuel with
  | 0 => ⟨.error .Read, st, port, [], []⟩
  | fuel + 1 =>
    match readSubpacket encoding port with
    | (.error .Data, b, port') =>
      match headerWrite (znakHeader.withCount st.count) with
      | .error e => ⟨.error e, { st with buf := b }, port', [], []⟩
      | .ok z =>
        let r := readZdata fuel encoding { st with buf := b } port'
        ⟨r.result, r.state, r.port, z ++ r.out, r.fileOut⟩
    | (.error e, b, port') => ⟨.error e, { st with buf := b }, port', [], []⟩
    | (.ok p, b, port') =>
      match (if b.isEmpty then headerWrite (zrposHeader.withCount st.count) else .ok []) with
      | .error e => ⟨.error e, { st with buf := b }, port', [], []⟩
      | .ok out1 =>
        let st2 : State :=
          { st with buf := b, count := (st.count + b.length) % 4294967296 }
        match p with
        | .ZCRCW =>
          match headerWrite (zackHeader.withCount st2.count) with
          | .error e => ⟨.error e, st2, port', out1, b⟩
          | .ok z => ⟨.ok (), st2, port', out1 ++ z, b⟩
        | .ZCRCE => ⟨.ok (), st2, port', out1, b⟩
        | .ZCRCQ =>
          match headerWrite (zackHeader.withCount st2.count) with
          | .error e => ⟨.error e, st2, port', out1, b⟩
          | .ok z =>
            let r := readZdata fuel encoding st2 port'
            ⟨r.result, r.state, r.port, out1 ++ z ++ r.out, b ++ r.fileOut⟩
        | .ZCRCG =>
          let r := readZdata fuel encoding st2 port'
          ⟨r.result, r.state, r.port, out1 ++ r.out, b ++ r.fileOut⟩

/-- `receive`: one receiver turn. -/
def receive (port : Port) (st : State) : RecvResult :=
  match (if st.stage = .Waiting then writeZrinit else .ok []) with
  | .error e => ⟨.error e, st, port, [], []⟩
  | .ok out0 =>
    match readZpad port with
    | (.error _, port') => ⟨.ok (), st, port', out0, []⟩
    | (.ok _, port') =>
      match headerRead port' with
      | (.error _, port2) =>
        match headerWrite znakHeader with
        | .error e => ⟨.error e, st, port2, out0, []⟩
        | .ok zn => ⟨.ok (), st, port2, out0 ++ zn, []⟩
      | (.ok h, port2) =>
        match h.frame with
        | .ZFILE =>
          match st.stage with
          | .Waiting | .Ready =>
            let r := readZfile h.encoding st port2
            match r.result with
            | .ok _ =>
              ⟨.ok (), { r.state with stage := .Ready }, r.port, out0 ++ r.out, r.fileOut⟩
            | .error e => ⟨.error e, r.state, r.port, out0 ++ r.out, r.fileOut⟩
          | _ => ⟨.ok (), st, port2, out0, []⟩
        | .ZDATA =>
          match st.stage with
          | .Waiting =>
            match writeZrinit with
            | .error e => ⟨.error e, st, port2, out0, []⟩
            | .ok z => ⟨.ok (), st, port2, out0 ++ z, []⟩
          | .Ready | .InProgress =>
            if h.count ≠ st.count then
              match headerWrite (zrposHeader.withCount st.count) with
              | .error e => ⟨.error e, st, port2, out0, []⟩
              | .ok z => ⟨.ok (), st, port2, out0 ++ z, []⟩
            else
              let r := readZdata (port2.length + 1) h.encoding st port2
              match r.result with
              | .ok _ =>
                ⟨.ok (), { r.state with stage := .InProgress }, r.port, out0 ++ r.out, r.fileOut⟩
              | .error e => ⟨.error e, r.state, r.port, out0 ++ r.out, r.fileOut⟩
          | .Done => ⟨.ok (), st, port2, out0, []⟩
        | .ZEOF =>
          match st.stage with
          | .InProgress =>
            if h.count = st.count then
              match writeZrinit with
              | .error e => ⟨.error e, st, port2, out0, []⟩
              | .ok z => ⟨.ok (), st, port2, out0 ++ z, []⟩
            else ⟨.ok (), st, port2, out0, []⟩
          | _ => ⟨.ok (), st, port2, out0, []⟩
        | .ZFIN =>
          match st.stage with
          | .InProgress =>
            match headerWrite zfinHeader with
            | .error e => ⟨.error e, st, port2, out0, []⟩
            | .ok z => ⟨.ok (), { st with stage := .Done }, port2, out0 ++ z, []⟩
          | _ => ⟨.ok (), st, port2, out0, []⟩
        | _ => ⟨.ok (), st, port2, out0, []⟩

/-- The file being sent, modelled as a byte list with a cursor (`Read` and
`Seek` over an in-memory source that never fails). -/
structure SFile where
  data : List Nat
  pos : Nat
deriving DecidableEq

/-- `Seek::seek`. -/
def fileSeek (f : SFile) (offset : Nat) : SFile := { f with pos := offset }

/-- `Read::read` into a buffer of length `n`: the next `≤ n` bytes and the
advanced cursor. -/
def fileRead (f : SFile) (n : Nat) : List Nat × SFile :=
  let chunk := (f.data.drop f.pos).take n
  (chunk, { f with pos := f.pos + chunk.length })

/-- The `for` loop of `write_zdata`: at most `SUBPACKET_PER_ACK - 1 = 9`
`ZCRCG` subpackets, then a final `ZCRCW` subpacket. Returns the emitted
bytes, the last chunk read (the live scratch-buffer contents) and the file
cursor. The `none` arms are unreachable: `writeSubpacket` is total on
`ZBIN32`. -/
def writeZdataLoop : Nat → SFile → Nat → List Nat → List Nat × List Nat × SFile
  | 0, f, _, chunk =>
    match writeSubpacket .ZBIN32 .ZCRCW chunk with
    | some o => (o, chunk, f)
    | none => ([], chunk, f)
  | k + 1, f, offset, chunk =>
    match writeSubpacket .ZBIN32 .ZCRCG chunk with
    | none => ([], chunk, f)
    | some o1 =>
      let offset2 := (offset + chunk.length) % 4294967296
      let (c2, f2) := fileRead f 1022
      if c2.length < 1022 then
        match writeSubpacket .ZBIN32 .ZCRCW c2 with
        | some o2 => (o1 ++ o2, c2, f2)
        | none => (o1, c2, f2)
      else
        let (o, cf, f3) := writeZdataLoop k f2 offset2 c2
        (o1 ++ o, cf, f3)

/-- `write_zdata`: seek to the requested offset and stream a data burst (or a
`ZEOF` header when the file is exhausted). Returns outcome, scratch-buffer
contents, file cursor and emitted bytes. -/
def writeZdata (file : SFile) (offset : Nat) : (Except Error Unit) × List Nat × SFile × List Nat :=
  let f1 := fileSeek file offset
  let (c0, f2) := fileRead f1 (BUFFER_SIZE - 2)
  if c0.length = 0 then
    match headerWrite (zeofHeader.withCount offset) with
    | .ok z => (.ok (), c0, f2, z)
    | .error e => (.error e, c0, f2, [])
  else
    match headerWrite (zdataHeader.withCount offset) with
    | .error e => (.error e, c0, f2, [])
    | .ok z0 =>
      let (o, cf, f3) := writeZdataLoop 9 f2 offset c0
      (.ok (), cf, f3, z0 ++ o)

/-- ASCII decimal digits of `n` (`String::try_from(u32)`), most significant
first. -/
def natDecimal (n : Nat) : List Nat :=
  natDecimalAux (n + 1) n
where
  /-- Emit the digits with explicit fuel; `n + 1` is always enough. -/
  natDecimalAux : Nat → Nat → List Nat
    | 0, _ => []
    | fuel + 1, n =>
      if n < 10 then [0x30 + n]
      else natDecimalAux fuel (n / 10) ++ [0x30 + n % 10]

/-- `write_zfile`: emit the `ZFILE` header and the name-and-size `ZCRCW`
subpacket. Returns the staged buffer contents and the emitted bytes. -/
def writeZfile (name : List Nat) (size : Nat) : Except Error (List Nat × List Nat) :=
  let digits := natDecimal size
  if 17 < digits.length then .error .Data
  else
    let buf := name ++ [0] ++ digits ++ [0]
    match headerWrite ⟨.ZBIN32, .ZFILE, [0, 0, 0, 0]⟩ with
    | .error e => .error e
    | .ok z =>
      match writeSubpacket .ZBIN32 .ZCRCW buf with
      | some o => .ok (buf, z ++ o)
      | none => .error .Data

/-- Result of one send turn: outcome, updated session state, file cursor,
remaining transport input and bytes written to the transport. -/
structure SendResult where
  result : Except Error Unit
  state : State
  file : SFile
  port : Port
  out : List Nat
deriving DecidableEq

/-- `send`: one sender turn. -/
def send (port : Port) (file : SFile) (st : State) : SendResult :=
  match (if st.stage = .Waiting then headerWrite zrqinitHeader else .ok []) with
  | .error e => ⟨.error e, st, file, port, []⟩
  | .ok out0 =>
    match readZpad port with
    | (.error _, port') => ⟨.ok (), st, file, port', out0⟩
    | (.ok _, port') =>
      match headerRead port' with
      | (.error _, port2) =>
        match headerWrite znakHeader with
        | .error e => ⟨.error e, st, file, port2, out0⟩
        | .ok zn => ⟨.ok (), st, file, port2, out0 ++ zn⟩
      | (.ok h, port2) =>
        match h.frame with
        | .ZRINIT =>
          match st.stage with
          | .Waiting =>
            match writeZfile st.fileName st.fileSize with
            | .error e => ⟨.error e, st, file, port2, out0⟩
            | .ok (buf2, o) =>
              ⟨.ok (), { st with stage := .Ready, buf := buf2 }, file, port2, out0 ++ o⟩
          | .InProgress =>
            match headerWrite zfinHeader with
            | .error e => ⟨.error e, st, file, port2, out0⟩
            | .ok z => ⟨.ok (), st, file, port2, out0 ++ z⟩
          | .Ready | .Done => ⟨.ok (), st, file, port2, out0⟩
        | .ZRPOS | .ZACK =>
          match st.stage with
          | .Waiting =>
            match headerWrite zrqinitHeader with
            | .error e => ⟨.error e, st, file, port2, out0⟩
            | .ok z => ⟨.ok (), st, file, port2, out0 ++ z⟩
          | .Ready | .InProgress =>
            match writeZdata file h.count with
            | (.ok _, buf2, file2, o) =>
              ⟨.ok (), { st with stage := .InProgress, buf := buf2 }, file2, port2, out0 ++ o⟩
            | (.error e, buf2, file2, o) =>
              ⟨.error e, { st with buf := buf2 }, file2, port2, out0 ++ o⟩
          | .Done => ⟨.ok (), st, file, port2, out0⟩
        | .ZFIN =>
          match st.stage with
          | .Waiting =>
            match headerWrite zrqinitHeader with
            | .error e => ⟨.error e, st, file, port2, out0⟩
            | .ok z => ⟨.ok (), st, file, port2, out0 ++ z⟩
          | .InProgress =>
            ⟨.ok (), { st with stage := .Done }, file, port2, out0 ++ [0x4f, 0x4f]⟩
          | .Ready | .Done => ⟨.ok (), st, file, port2, out0⟩
        | _ =>
          if st.stage = .Waiting then
            match headerWrite zrqinitHeader with
            | .error e => ⟨.error e, st, file, port2, out0⟩
            | .ok z => ⟨.ok (), st, file, port2, out0 ++ z⟩
          else ⟨.ok (), st, file, port2, out0⟩

/-! ### Facts about the escape tables -/

/-- Table dichotomy: every octet is either left unchanged by the forward
table and is not `ZDLE`, or it is translated to an in-range byte that the
reverse table maps back. -/
theorem zdleTable_cases :
    ∀ b < 256, (zdleOf b = b ∧ b ≠ ZDLE) ∨
      (zdleOf b ≠ b ∧ zdleOf b < 256 ∧ zdleOf b ≠ ZDLE ∧ unzdleOf (zdleOf b) = b) := by
  decide

/-- Escaping one octet and unescaping the emitted bytes recovers the octet
and consumes exactly the emitted bytes. -/
theorem unescape_escape (b : Nat) (hb : b < 256) (rest : Port) :
    readByteUnescaped (writeByteEscaped b ++ rest) = (.ok b, rest) := by
  rcases zdleTable_cases b hb with ⟨h1, h2⟩ | ⟨h1, h2, h3, h4⟩
  · simp only [writeByteEscaped, h1, ne_eq, not_true_eq_false, if_false,
      List.cons_append, List.nil_append, readByteUnescaped, Nat.mod_eq_of_lt hb]
    simp [h2]
  · simp only [writeByteEscaped, ne_eq, h1, not_false_eq_true, if_true,
      List.cons_append, List.nil_append, readByteUnescaped]
    norm_num [ZDLE, Nat.mod_eq_of_lt h2, h4]

/-- Unescaping after `write_slice_escaped` recovers the slice and consumes
exactly the emitted bytes. -/
theorem readExact_escape (l : List Nat) (rest : Port) (h : ∀ b ∈ l, b < 256) :
    readExactUnescaped l.length (escapeList l ++ rest) = (.ok l, rest) := by
  induction l with
  | nil => simp [escapeList, readExactUnescaped]
  | cons b t ih =>
    have hb : b < 256 := h b (by simp)
    have ht : ∀ x ∈ t, x < 256 := fun x hx => h x (by simp [hx])
    simp only [escapeList, List.append_assoc, List.length_cons, readExactUnescaped,
      unescape_escape b hb (escapeList t ++ rest), ih ht]

/-! ### Claim C2 — escape table entries for 0x7F and 0xFF -/

/-- Claim C2 counterexample: the forward table maps `0x7F` to `0x6C` (not to
`0x7F`), so `write_byte_escaped(0x7F)` emits the pair `ZDLE 0x6C` rather
than the single byte `0x7F`; likewise `0xFF` maps to `0x6D`. -/
theorem claim_C2_counterexample :
    zdleOf 0x7f = 0x6c ∧ writeByteEscaped 0x7f ≠ [0x7f] ∧
      zdleOf 0xff = 0x6d ∧ writeByteEscaped 0xff ≠ [0xff] := by
  decide

/-- Claim C2, amended: the forward escape table maps `0x7F` to `0x6C` and
`0xFF` to `0x6D`, so `write_byte_escaped(0x7F)` emits `ZDLE 0x6C` and
`write_byte_escaped(0xFF)` emits `ZDLE 0x6D`, while the reverse table maps
`0x6C` to `0x7F` and `0x6D` to `0xFF`, so `ZDLE 0x6C` and `ZDLE 0x6D` decode
to `0x7F` and `0xFF` on read. -/
theorem claim_C2 :
    zdleOf 0x7f = 0x6c ∧ zdleOf 0xff = 0x6d ∧
      writeByteEscaped 0x7f = [ZDLE, 0x6c] ∧ writeByteEscaped 0xff = [ZDLE, 0x6d] ∧
      unzdleOf 0x6c = 0x7f ∧ unzdleOf 0x6d = 0xff ∧
      readByteUnescaped [ZDLE, 0x6c] = (.ok 0x7f, []) ∧
      readByteUnescaped [ZDLE, 0x6d] = (.ok 0xff, []) := by
  decide

/-! ### Claim C5 — escape round-trip for every octet -/

/-- Claim C5: for every octet, writing it escaped and then reading the
emitted byte sequence unescaped yields the octet back, consuming exactly the
bytes that were written (any following bytes are left untouched). -/
theorem claim_C5 (b : Nat) (rest : Port) (hb : b < 256) :
    readByteUnescaped (writeByteEscaped b ++ rest) = (.ok b, rest) :=
  unescape_escape b hb rest

/-- Witness for claim C5 at the escaped octet `0x7F` with a nonempty tail. -/
theorem claim_C5_witness :
    0x7f < 256 ∧
      readByteUnescaped (writeByteEscaped 0x7f ++ [1, 2]) = (.ok 0x7f, [1, 2]) :=
  ⟨by decide, claim_C5 0x7f [1, 2] (by decide)⟩

/-! ### Claim C7 — ZRQINIT header bytes in ZBIN32 -/

/-- Claim C7 counterexample: the serialized `ZRQINIT` `ZBIN32` header with
zero flags is twelve bytes (three prefix bytes, the five-byte body
`00 00 00 00 00`, and the four CRC bytes), not the thirteen bytes stated by
the claim, which contain one zero byte too many. -/
theorem claim_C7_counterexample :
    headerWrite ⟨.ZBIN32, .ZRQINIT, [0, 0, 0, 0]⟩ ≠
      .ok [0x2a, 0x18, 0x43, 0, 0, 0, 0, 0, 0, 0x1d, 0xf7, 0x22, 0xc6] := by
  decide

/-- Claim C7, amended: writing a `ZRQINIT` header in `ZBIN32` encoding with
all four flag bytes zero emits exactly the twelve bytes
`2A 18 43 00 00 00 00 00 1D F7 22 C6`; the CRC-32/ISO-HDLC of the five-byte
header body is appended in little-endian order. -/
theorem claim_C7 :
    headerWrite ⟨.ZBIN32, .ZRQINIT, [0, 0, 0, 0]⟩ =
      .ok [0x2a, 0x18, 0x43, 0, 0, 0, 0, 0, 0x1d, 0xf7, 0x22, 0xc6] ∧
    toLE4 (crc32 [0, 0, 0, 0, 0]) = [0x1d, 0xf7, 0x22, 0xc6] := by
  constructor
  · decide
  · decide

/-! ### Hex codec lemmas -/

/-- A hex digit of an in-range value is in range, untouched by the escape
table, and decodes back to the value. -/
theorem hexDigitChar_fact :
    ∀ x < 16, hexDigitChar x < 256 ∧ zdleOf (hexDigitChar x) = hexDigitChar x ∧
      hexVal (hexDigitChar x) = some x := by
  decide

/-- Sixteenths of an octet are below sixteen. -/
theorem div16_lt : ∀ b < 256, b / 16 < 16 ∧ b % 16 < 16 := by
  decide

/-- Hex encoding doubles the length. -/
theorem hexEncode_length (l : List Nat) : (hexEncode l).length = 2 * l.length := by
  induction l with
  | nil => rfl
  | cons b t ih => simp [hexEncode, ih]; omega

/-- Every byte of the hex encoding of octets is an in-range octet. -/
theorem hexEncode_mem (l : List Nat) (h : ∀ b ∈ l, b < 256) :
    ∀ c ∈ hexEncode l, c < 256 := by
  induction l with
  | nil => simp [hexEncode]
  | cons b t ih =>
    have hb := h b (by simp)
    intro c hc
    simp only [hexEncode, List.mem_cons] at hc
    rcases hc with rfl | rfl | hc
    · exact (hexDigitChar_fact _ (div16_lt b hb).1).1
    · exact (hexDigitChar_fact _ (div16_lt b hb).2).1
    · exact ih (fun x hx => h x (by simp [hx])) c hc

/-- Hex decoding inverts hex encoding on octet lists. -/
theorem hexDecode_hexEncode (l : List Nat) (h : ∀ b ∈ l, b < 256) :
    hexDecode (hexEncode l) = .ok l := by
  induction l with
  | nil => rfl
  | cons b t ih =>
    have hb := h b (by simp)
    have h1 := (hexDigitChar_fact _ (div16_lt b hb).1).2.2
    have h2 := (hexDigitChar_fact _ (div16_lt b hb).2).2.2
    have h3 := ih (fun x hx => h x (by simp [hx]))
    have h4 : b / 16 * 16 + b % 16 = b := by
      have := Nat.div_add_mod b 16
      omega
    simp [hexEncode, hexDecode, h1, h2, h3, h4]

/-! ### Header codec lemmas -/

/-- The CRC trailer always has `crcLen` bytes. -/
theorem makeCrc_length (d : List Nat) (e : Encoding) :
    (makeCrc d e).length = crcLen e := by
  cases e <;> simp [makeCrc, crcLen, toLE4, toBE2]

/-- Every CRC trailer byte is an octet. -/
theorem makeCrc_mem (d : List Nat) (e : Encoding) : ∀ b ∈ makeCrc d e, b < 256 := by
  cases e <;> simp [makeCrc, toLE4, toBE2] <;> omega

/-- Frame bytes are octets. -/
theorem frameToByte_lt (fr : Frame) : fr.toByte < 256 := by
  cases fr <;> decide

/-- Parsing a frame byte recovers the frame. -/
theorem frameFromByte_toByte (fr : Frame) : frameFromByte fr.toByte = .ok fr := by
  cases fr <;> rfl

/-- Parsing an encoding byte (as read from the port) recovers the
encoding. -/
theorem encodingFromByte_toByte (e : Encoding) :
    encodingFromByte (e.toByte % 256) = .ok e := by
  cases e <;> rfl

/-! ### Claim C6 — header round-trip -/

/-- The serialized header body (frame byte, flags, CRC trailer). -/
def headerBody (enc : Encoding) (fr : Frame) (flags : List Nat) : List Nat :=
  (fr.toByte :: flags) ++ makeCrc (fr.toByte :: flags) enc

/-- Every byte of a header body over octet flags is an octet. -/
theorem headerBody_mem (enc : Encoding) (fr : Frame) (flags : List Nat)
    (hb : ∀ b ∈ flags, b < 256) : ∀ b ∈ headerBody enc fr flags, b < 256 := by
  intro b hb2
  rcases List.mem_append.mp hb2 with hb2 | hb2
  · rcases List.mem_cons.mp hb2 with rfl | hb2
    · exact frameToByte_lt fr
    · exact hb b hb2
  · exact makeCrc_mem _ enc b hb2

/-- Length of the serialized header body. -/
theorem headerBody_length (enc : Encoding) (fr : Frame) (flags : List Nat)
    (hlen : flags.length = 4) : (headerBody enc fr flags).length = 5 + crcLen enc := by
  simp [headerBody, hlen, makeCrc_length]
  omega

/-- Parsing the trailing fields out of a serialized header body recovers the
frame and flags, and its CRC check passes. -/
theorem headerBody_fields (enc : Encoding) (fr : Frame) (flags : List Nat)
    (hlen : flags.length = 4) :
    checkCrc ((headerBody enc fr flags).take 5) ((headerBody enc fr flags).drop 5) enc
        = .ok () ∧
      (headerBody enc fr flags).getD 0 0 = fr.toByte ∧
      (((headerBody enc fr flags).drop 1).take 4) = flags := by
  have hbody_len : (fr.toByte :: flags).length = 5 := by simp [hlen]
  refine ⟨?_, ?_, ?_⟩
  · rw [headerBody, List.take_left' hbody_len, List.drop_left' hbody_len]
    simp [checkCrc]
  · simp [headerBody]
  · rw [headerBody, List.cons_append, List.drop_succ_cons, List.drop_zero,
      List.take_left' hlen]

/-- Reading a binary-encoded header whose escaped body is followed by
arbitrary bytes recovers the header and leaves those bytes unread. -/
theorem headerRead_escaped (enc : Encoding) (fr : Frame) (flags : List Nat)
    (hlen : flags.length = 4) (hb : ∀ b ∈ flags, b < 256) (henc : ¬ enc = .ZHEX)
    (tail : Port) :
    headerRead (enc.toByte :: (escapeList (headerBody enc fr flags) ++ tail))
      = (.ok ⟨enc, fr, flags⟩, tail) := by
  have hmem := headerBody_mem enc fr flags hb
  have hre := readExact_escape (headerBody enc fr flags) tail hmem
  have hn : (headerBody enc fr flags).length = unescapedSize enc - 1 := by
    rw [headerBody_length enc fr flags hlen]
    cases enc with
    | ZBIN => rfl
    | ZBIN32 => rfl
    | ZHEX => exact absurd rfl henc
  rw [hn] at hre
  obtain ⟨h1, h2, h3⟩ := headerBody_fields enc fr flags hlen
  simp only [headerRead, encodingFromByte_toByte, hre, if_neg henc, h1, h2, h3,
    frameFromByte_toByte]

/-- Reading a hex-encoded header whose digit stream is followed by arbitrary
bytes recovers the header and leaves those bytes unread. -/
theorem headerRead_hex (fr : Frame) (flags : List Nat)
    (hlen : flags.length = 4) (hb : ∀ b ∈ flags, b < 256) (tail : Port) :
    headerRead (Encoding.ZHEX.toByte ::
        (escapeList (hexEncode (headerBody .ZHEX fr flags)) ++ tail))
      = (.ok ⟨.ZHEX, fr, flags⟩, tail) := by
  have hmem := headerBody_mem .ZHEX fr flags hb
  have hre := readExact_escape (hexEncode (headerBody .ZHEX fr flags)) tail
    (hexEncode_mem _ hmem)
  have hn : (hexEncode (headerBody .ZHEX fr flags)).length = unescapedSize .ZHEX - 1 := by
    rw [hexEncode_length, headerBody_length .ZHEX fr flags hlen]
    rfl
  rw [hn] at hre
  obtain ⟨h1, h2, h3⟩ := headerBody_fields .ZHEX fr flags hlen
  simp only [headerRead, encodingFromByte_toByte, hre, eq_self_iff_true, if_true,
    hexDecode_hexEncode _ hmem, h1, h2, h3, frameFromByte_toByte]

/-- The bytes `Header::write` emits for a `ZHEX` header with four flag
bytes. -/
theorem headerWrite_hex (fr : Frame) (flags : List Nat) (hlen : flags.length = 4) :
    headerWrite ⟨.ZHEX, fr, flags⟩ =
      .ok ([ZPAD, ZPAD, ZDLE, Encoding.ZHEX.toByte] ++
        escapeList (hexEncode (headerBody .ZHEX fr flags)) ++ ([0x0d, 0x0a] ++
          (if fr ≠ .ZACK ∧ fr ≠ .ZFIN then [XON] else []))) := by
  have h14 : (headerBody .ZHEX fr flags).length * 2 = 14 :=
    by rw [headerBody_length .ZHEX fr flags hlen]; rfl
  rw [headerBody] at h14
  simp only [headerWrite, if_pos rfl, h14]
  norm_num [headerBody]

/-- Claim C6: for every encoding, frame type and four-octet flags, writing a
header and then parsing the emitted bytes after the leading
`ZPAD (ZPAD) ZDLE` prefix succeeds and returns a header with the same
encoding, frame and flags. -/
theorem claim_C6 (enc : Encoding) (fr : Frame) (flags : List Nat)
    (hlen : flags.length = 4) (hb : ∀ b ∈ flags, b < 256) :
    ∃ out, headerWrite ⟨enc, fr, flags⟩ = .ok out ∧
      (headerRead (out.drop (if enc = .ZHEX then 3 else 2))).fst = .ok ⟨enc, fr, flags⟩ := by
  cases enc with
  | ZBIN =>
    refine ⟨[ZPAD, ZDLE, Encoding.ZBIN.toByte] ++ escapeList (headerBody .ZBIN fr flags),
      by simp [headerWrite, headerBody], ?_⟩
    have hdp : (([ZPAD, ZDLE, Encoding.ZBIN.toByte] ++
        escapeList (headerBody .ZBIN fr flags)).drop
          (if (Encoding.ZBIN = Encoding.ZHEX) then 3 else 2))
        = Encoding.ZBIN.toByte :: (escapeList (headerBody .ZBIN fr flags) ++ []) := by
      simp
    rw [hdp, headerRead_escaped .ZBIN fr flags hlen hb (by simp) []]
  | ZBIN32 =>
    refine ⟨[ZPAD, ZDLE, Encoding.ZBIN32.toByte] ++ escapeList (headerBody .ZBIN32 fr flags),
      by simp [headerWrite, headerBody], ?_⟩
    have hdp : (([ZPAD, ZDLE, Encoding.ZBIN32.toByte] ++
        escapeList (headerBody .ZBIN32 fr flags)).drop
          (if (Encoding.ZBIN32 = Encoding.ZHEX) then 3 else 2))
        = Encoding.ZBIN32.toByte :: (escapeList (headerBody .ZBIN32 fr flags) ++ []) := by
      simp
    rw [hdp, headerRead_escaped .ZBIN32 fr flags hlen hb (by simp) []]
  | ZHEX =>
    refine ⟨[ZPAD, ZPAD, ZDLE, Encoding.ZHEX.toByte] ++
        escapeList (hexEncode (headerBody .ZHEX fr flags)) ++ ([0x0d, 0x0a] ++
          (if fr ≠ .ZACK ∧ fr ≠ .ZFIN then [XON] else [])),
      headerWrite_hex fr flags hlen, ?_⟩
    have hdp : (([ZPAD, ZPAD, ZDLE, Encoding.ZHEX.toByte] ++
        escapeList (hexEncode (headerBody .ZHEX fr flags)) ++ ([0x0d, 0x0a] ++
          (if fr ≠ .ZACK ∧ fr ≠ .ZFIN then [XON] else []))).drop
            (if (Encoding.ZHEX = Encoding.ZHEX) then 3 else 2))
        = Encoding.ZHEX.toByte :: (escapeList (hexEncode (headerBody .ZHEX fr flags)) ++
            ([0x0d, 0x0a] ++ (if fr ≠ .ZACK ∧ fr ≠ .ZFIN then [XON] else []))) := by
      simp
    rw [hdp, headerRead_hex fr flags hlen hb _]

/-! ### Claim C8 — overflow recovery in read_subpacket -/

/-- Terminator bytes survive the `% 256` truncation and parse back. -/
theorem packetFromByte_toByte (p : Packet) :
    packetFromByte (p.toByte % 256) = some p := by
  cases p <;> rfl

/-- `skip_subpacket_tail` discards non-`ZDLE` bytes until the
`ZDLE`-terminator pair. -/
theorem skipTailLoop_skips (p : Packet) (tail : Port) :
    ∀ filler : List Nat, (∀ b ∈ filler, b % 256 ≠ ZDLE) →
      skipTailLoop (filler ++ (ZDLE :: p.toByte :: tail)) = (.ok p, tail) := by
  intro filler
  induction filler with
  | nil =>
    intro _
    simp [skipTailLoop, ZDLE, packetFromByte_toByte]
  | cons b fs ih =>
    intro h
    have hb : b % 256 ≠ ZDLE := h b (by simp)
    simp only [List.cons_append]
    rw [skipTailLoop.eq_def]
    simp only [if_neg hb]
    exact ih (fun x hx => h x (by simp [hx]))

/-- Reading a fixed number of non-`ZDLE` bytes consumes exactly those
bytes. -/
theorem readExact_plain (l : List Nat) (rest : Port) (h : ∀ b ∈ l, b % 256 ≠ ZDLE) :
    readExactUnescaped l.length (l ++ rest)
      = (.ok (l.map (fun b => b % 256)), rest) := by
  induction l with
  | nil => simp [readExactUnescaped]
  | cons b t ih =>
    have hb : b % 256 ≠ ZDLE := h b (by simp)
    simp only [List.cons_append, List.length_cons, readExactUnescaped,
      readByteUnescaped, if_neg hb, ih (fun x hx => h x (by simp [hx])), List.map_cons]

/-- `skip_subpacket_tail` over junk, a terminator pair, and unescaped CRC
bytes returns the terminator and leaves the remaining input. -/
theorem skipSubpacketTail_skips (enc : Encoding) (p : Packet) (filler crc rest : List Nat)
    (hf : ∀ b ∈ filler, b % 256 ≠ ZDLE)
    (hcl : crc.length = crcLen enc) (hc : ∀ b ∈ crc, b % 256 ≠ ZDLE) :
    skipSubpacketTail enc (filler ++ (ZDLE :: p.toByte :: (crc ++ rest)))
      = (.ok p, rest) := by
  have h1 := skipTailLoop_skips p (crc ++ rest) filler hf
  have h2 := readExact_plain crc rest hc
  rw [hcl] at h2
  simp only [skipSubpacketTail, h1, h2]

/-- Once the payload reaches the buffer capacity, `read_subpacket` switches
to tail-skipping: the rest of the filler is discarded, the terminator and
the CRC bytes are consumed, and the buffer comes back empty. -/
theorem readSubpacketAux_overflow (enc : Encoding) (p : Packet) (crc rest : List Nat)
    (hcl : crc.length = crcLen enc) (hc : ∀ b ∈ crc, b % 256 ≠ ZDLE) :
    ∀ (filler buf : List Nat), (∀ b ∈ filler, b % 256 ≠ ZDLE) →
      buf.length < BUFFER_SIZE → BUFFER_SIZE ≤ buf.length + filler.length →
      readSubpacketAux enc buf (filler ++ (ZDLE :: p.toByte :: (crc ++ rest)))
        = (.ok (.overflow p), [], rest) := by
  intro filler
  induction filler with
  | nil =>
    intro buf _ h1 h2
    simp only [List.length_nil, Nat.add_zero] at h2
    omega
  | cons b fs ih =>
    intro buf hmem h1 h2
    have hb : b % 256 ≠ ZDLE := hmem b (by simp)
    have hfs : ∀ x ∈ fs, x % 256 ≠ ZDLE := fun x hx => hmem x (by simp [hx])
    simp only [List.cons_append]
    rw [readSubpacketAux.eq_def]
    simp only [if_neg hb]
    by_cases hcap : (buf ++ [b % 256]).length = BUFFER_SIZE
    · simp only [hcap, eq_self_iff_true, if_true,
        skipSubpacketTail_skips enc p fs crc rest hfs hcl hc]
    · simp only [if_neg hcap]
      have hlen1 : (buf ++ [b % 256]).length < BUFFER_SIZE := by
        simp only [List.length_append, List.length_cons, List.length_nil] at hcap ⊢
        omega
      have hlen2 : BUFFER_SIZE ≤ (buf ++ [b % 256]).length + fs.length := by
        simp only [List.length_cons] at h2
        simp only [List.length_append, List.length_cons, List.length_nil]
        omega
      exact ih (buf ++ [b % 256]) hfs hlen1 hlen2

/-- Claim C8: when the payload fills the 1024-byte buffer before any
terminator, `read_subpacket` keeps consuming until a `ZDLE`-terminator pair,
consumes the trailing CRC bytes (four for `ZBIN32`, two otherwise), and
returns success with an empty payload buffer and the observed terminator. -/
theorem claim_C8 (enc : Encoding) (p : Packet) (filler crc rest : List Nat)
    (hf : ∀ b ∈ filler, b % 256 ≠ ZDLE) (hflen : BUFFER_SIZE ≤ filler.length)
    (hcl : crc.length = crcLen enc) (hc : ∀ b ∈ crc, b % 256 ≠ ZDLE) :
    readSubpacket enc (filler ++ (ZDLE :: p.toByte :: (crc ++ rest)))
      = (.ok p, [], rest) := by
  have h := readSubpacketAux_overflow enc p crc rest hcl hc filler [] hf
    (by simp [BUFFER_SIZE]) (by simpa using hflen)
  simp only [readSubpacket, h]

/-- Witness for claim C8: 1024 filler bytes, a `ZCRCW` terminator, four CRC
bytes under `ZBIN32`, one leftover byte. -/
theorem claim_C8_witness :
    (∀ b ∈ List.replicate 1024 0x41, b % 256 ≠ ZDLE) ∧
      BUFFER_SIZE ≤ (List.replicate 1024 0x41).length ∧
      ([1, 2, 3, 4] : List Nat).length = crcLen .ZBIN32 ∧
      (∀ b ∈ ([1, 2, 3, 4] : List Nat), b % 256 ≠ ZDLE) ∧
      readSubpacket .ZBIN32
          (List.replicate 1024 0x41 ++ (ZDLE :: Packet.ZCRCW.toByte :: ([1, 2, 3, 4] ++ [9])))
        = (.ok .ZCRCW, [], [9]) := by
  have hf : ∀ b ∈ List.replicate 1024 0x41, b % 256 ≠ ZDLE := by
    intro b hb
    rw [List.eq_of_mem_replicate hb]
    decide
  have hflen : BUFFER_SIZE ≤ (List.replicate 1024 0x41).length := by
    simp [BUFFER_SIZE]
  exact ⟨hf, hflen, by decide, by decide,
    claim_C8 .ZBIN32 .ZCRCW (List.replicate 1024 0x41) [1, 2, 3, 4] [9]
      hf hflen (by decide) (by decide)⟩

/-- Witness for claim C6 at `ZHEX`, `ZRINIT`, flags `1 2 3 4`. -/
theorem claim_C6_witness :
    ([1, 2, 3, 4] : List Nat).length = 4 ∧ (∀ b ∈ ([1, 2, 3, 4] : List Nat), b < 256) ∧
      ∃ out, headerWrite ⟨.ZHEX, .ZRINIT, [1, 2, 3, 4]⟩ = .ok out ∧
        (headerRead (out.drop 3)).fst = .ok ⟨.ZHEX, .ZRINIT, [1, 2, 3, 4]⟩ := by
  refine ⟨by decide, by decide, ?_⟩
  have h := claim_C6 .ZHEX .ZRINIT [1, 2, 3, 4] (by decide) (by decide)
  simpa using h

/-! ### Claim C3 — the ZRINIT greeting and its flag layout -/

/-- Unwrap the bytes of a successful header write (empty on error). -/
def okD : Except Error (List Nat) → List Nat
  | .ok l => l
  | .error _ => []

/-- Unwrap the bytes of a subpacket write (empty on the unreachable `ZHEX`
arm). -/
def someD : Option (List Nat) → List Nat
  | some l => l
  | none => []

/-- Claim C3 counterexample: the greeting `receive` emits from `Waiting` (on
an empty transport, the turn emits exactly the `ZRINIT` header) is not the
serialization of a `ZRINIT` header whose first flag byte holds the
capability bits: the source puts `CANFDX | CANOVIO | CANFC32` in the fourth
flag byte. -/
theorem claim_C3_counterexample :
    (receive [] State.new).out.length = 21 ∧
      headerWrite ⟨.ZHEX, .ZRINIT, [CANFDX ||| CANOVIO ||| CANFC32, 0, 0, 0]⟩ ≠
        .ok ((receive [] State.new).out.take 21) := by
  decide

/-- Claim C3, amended: when `receive` is called with stage `Waiting`, the
first bytes it writes are a `ZHEX` `ZRINIT` header whose fourth flag byte
(`flags[3]`, the most significant byte of the little-endian 32-bit flags
field) equals `CANFDX | CANOVIO | CANFC32`, with the other three flag bytes
zero. -/
theorem claim_C3 (port : Port) (st : State) (h : st.stage = .Waiting) :
    ∃ zr, headerWrite ⟨.ZHEX, .ZRINIT, [0, 0, 0, CANFDX ||| CANOVIO ||| CANFC32]⟩ = .ok zr ∧
      ∃ rest, (receive port st).out = zr ++ rest := by
  obtain ⟨zr, hzr⟩ : ∃ zr, writeZrinit = Except.ok zr := ⟨_, rfl⟩
  refine ⟨zr, hzr, ?_⟩
  simp only [receive, h, eq_self_iff_true, if_true, hzr]
  repeat' split
  all_goals simp

/-- Witness for amended claim C3: a fresh session on an empty transport. -/
theorem claim_C3_witness :
    ∃ zr, headerWrite ⟨.ZHEX, .ZRINIT, [0, 0, 0, CANFDX ||| CANOVIO ||| CANFC32]⟩ = .ok zr ∧
      ∃ rest, (receive [] State.new).out = zr ++ rest :=
  claim_C3 [] State.new rfl

/-! ### Claim C4 — transport read failures during alignment and header read -/

/-- Claim C4 counterexample: on an exhausted transport the alignment read
fails with `Error::Read`, yet both `receive` and `send` return `Ok(())`
instead of propagating the failure. -/
theorem claim_C4_counterexample :
    readZpad [] = (.error .Read, []) ∧
      (receive [] ⟨.Ready, 0, [], 0, []⟩).result = .ok () ∧
      (send [] ⟨[], 0⟩ ⟨.Ready, 0, [], 0, []⟩).result = .ok () := by
  decide

/-- Claim C4, amended: a transport read failure with `Error::Read` while
aligning on `ZPAD` or while reading the header is swallowed: the call
returns `Ok(())` (emitting `ZNAK` in the header case) rather than
`Err(Error::Read)`. -/
theorem claim_C4 (port : Port) (st : State) (file : SFile)
    (h : (readZpad port).fst = .error Error.Read ∨
      (headerRead (readZpad port).snd).fst = .error Error.Read) :
    (receive port st).result = .ok () ∧ (send port file st).result = .ok () := by
  obtain ⟨o0, ho0⟩ : ∃ o, (if st.stage = .Waiting then writeZrinit
      else Except.ok ([] : List Nat)) = .ok o := by
    by_cases hst : st.stage = .Waiting <;> simp [hst] <;> exact ⟨_, rfl⟩
  obtain ⟨o1, ho1⟩ : ∃ o, (if st.stage = .Waiting then headerWrite zrqinitHeader
      else Except.ok ([] : List Nat)) = .ok o := by
    by_cases hst : st.stage = .Waiting <;> simp [hst] <;> exact ⟨_, rfl⟩
  rcases hzp : readZpad port with ⟨rz, port'⟩
  rcases rz with e | u
  · constructor
    · simp only [receive, ho0, hzp]
    · simp only [send, ho1, hzp]
  · obtain ⟨zn, hzn⟩ : ∃ z, headerWrite znakHeader = Except.ok z := ⟨_, rfl⟩
    rcases hh : headerRead port' with ⟨rh, port2⟩
    rcases rh with e | hdr
    · constructor
      · simp only [receive, ho0, hzp, hh, hzn]
      · simp only [send, ho1, hzp, hh, hzn]
    · rw [hzp] at h
      simp only [hh] at h
      simp at h

/-- Witness for amended claim C4: the empty transport. -/
theorem claim_C4_witness :
    ((readZpad ([] : Port)).fst = .error Error.Read ∨
        (headerRead (readZpad ([] : Port)).snd).fst = .error Error.Read) ∧
      (receive [] ⟨.InProgress, 3, [], 9, []⟩).result = .ok () ∧
      (send [] ⟨[1], 0⟩ ⟨.InProgress, 3, [], 9, []⟩).result = .ok () :=
  ⟨by decide, claim_C4 [] ⟨.InProgress, 3, [], 9, []⟩ ⟨[1], 0⟩ (by decide)⟩

/-! ### Claim C9 — Done is absorbing -/

/-- Claim C9: once the stage is `Done`, both `send` and `receive` are no-ops
returning success on every transport input: the whole session state (in
particular stage, count, file name and file size) is left unchanged. -/
theorem claim_C9 (port : Port) (st : State) (file : SFile) (h : st.stage = .Done) :
    (receive port st).result = .ok () ∧ (receive port st).state = st ∧
      (send port file st).result = .ok () ∧ (send port file st).state = st := by
  have hnw : ¬ st.stage = .Waiting := by rw [h]; decide
  obtain ⟨zn, hzn⟩ : ∃ z, headerWrite znakHeader = Except.ok z := ⟨_, rfl⟩
  refine ⟨?_, ?_, ?_, ?_⟩ <;>
    simp only [receive, send, h, hnw, if_false, if_neg hnw, hzn] <;>
    (repeat' split) <;> simp_all

/-- Witness for claim C9 on a nonempty transport. -/
theorem claim_C9_witness :
    (receive [0x2a, 7] ⟨.Done, 5, [1], 7, [9]⟩).result = .ok () ∧
      (receive [0x2a, 7] ⟨.Done, 5, [1], 7, [9]⟩).state = ⟨.Done, 5, [1], 7, [9]⟩ ∧
      (send [0x2a, 7] ⟨[4], 0⟩ ⟨.Done, 5, [1], 7, [9]⟩).result = .ok () ∧
      (send [0x2a, 7] ⟨[4], 0⟩ ⟨.Done, 5, [1], 7, [9]⟩).state = ⟨.Done, 5, [1], 7, [9]⟩ :=
  claim_C9 [0x2a, 7] ⟨.Done, 5, [1], 7, [9]⟩ ⟨[4], 0⟩ rfl

/-! ### Claim C10 — the stage only moves forward -/

/-- Writing a `ZHEX` header with a count field always succeeds. -/
theorem headerWrite_withCount_zhex (fr : Frame) (c : Nat) :
    headerWrite ⟨.ZHEX, fr, toLE4 c⟩ =
      .ok ([ZPAD, ZPAD, ZDLE, Encoding.ZHEX.toByte] ++
        escapeList (hexEncode (headerBody .ZHEX fr (toLE4 c))) ++ ([0x0d, 0x0a] ++
          (if fr ≠ .ZACK ∧ fr ≠ .ZFIN then [XON] else []))) :=
  headerWrite_hex fr (toLE4 c) (by simp [toLE4])

/-- `read_zfile` never touches the stage. -/
theorem readZfile_stage (enc : Encoding) (st : State) (port : Port) :
    (readZfile enc st port).state.stage = st.stage := by
  simp only [readZfile]
  repeat' split
  all_goals simp

/-- `read_zdata` never touches the stage. -/
theorem readZdata_stage (fuel : Nat) (enc : Encoding) :
    ∀ (st : State) (port : Port), (readZdata fuel enc st port).state.stage = st.stage := by
  induction fuel with
  | zero => intro st port; simp [readZdata]
  | succ n ih =>
    intro st port
    rw [readZdata.eq_def]
    repeat' split
    all_goals simp_all [Header.withCount, zackHeader, zrposHeader, znakHeader,
      headerWrite_withCount_zhex]

/-- Claim C10: along the order `Waiting < Ready < InProgress < Done`, one
turn of `receive` or `send` never moves the stage backwards, on any
transport input and for any outcome. -/
theorem claim_C10 (port : Port) (st : State) (file : SFile) :
    st.stage.rank ≤ (receive port st).state.stage.rank ∧
      st.stage.rank ≤ (send port file st).state.stage.rank := by
  constructor
  · simp only [receive]
    repeat' split
    all_goals simp_all [readZfile_stage, readZdata_stage, Stage.rank]
  · simp only [send]
    repeat' split
    all_goals simp_all [Stage.rank]

/-! ### Claim C1 — consumption bounds and count monotonicity -/

/-- Unescaping one byte never grows the remaining input. -/
theorem readByteUnescaped_length (port : Port) :
    (readByteUnescaped port).snd.length ≤ port.length := by
  rcases port with _ | ⟨b, rest⟩
  · simp [readByteUnescaped]
  · simp only [readByteUnescaped]
    split
    · rcases rest with _ | ⟨c, rest2⟩ <;> simp <;> omega
    · simp

/-- Reading `n` unescaped bytes never grows the remaining input. -/
theorem readExactUnescaped_length (n : Nat) :
    ∀ port : Port, (readExactUnescaped n port).snd.length ≤ port.length := by
  induction n with
  | zero => intro port; simp [readExactUnescaped]
  | succ k ih =>
    intro port
    rcases h1 : readByteUnescaped port with ⟨r1, port'⟩
    have hb : port'.length ≤ port.length := by
      have := readByteUnescaped_length port
      rw [h1] at this
      exact this
    rcases h2 : readExactUnescaped k port' with ⟨r2, port''⟩
    have hc : port''.length ≤ port'.length := by
      have := ih port'
      rw [h2] at this
      exact this
    rw [readExactUnescaped]
    simp only [h1]
    rcases r1 with e | b
    · simpa using hb
    · simp only [h2]
      rcases r2 with e | l <;> simp <;> omega

/-- The tail-skipping loop never grows the remaining input. -/
theorem skipTailLoop_length (port : Port) :
    (skipTailLoop port).snd.length ≤ port.length := by
  induction port using skipTailLoop.induct <;>
    (rw [skipTailLoop.eq_def]; repeat' split) <;> simp_all <;> omega

/-- `skip_subpacket_tail` never grows the remaining input. -/
theorem skipSubpacketTail_length (enc : Encoding) (port : Port) :
    (skipSubpacketTail enc port).snd.length ≤ port.length := by
  rw [skipSubpacketTail]
  rcases h1 : skipTailLoop port with ⟨r1, port'⟩
  have hb : port'.length ≤ port.length := by
    have := skipTailLoop_length port
    rw [h1] at this
    exact this
  rcases r1 with e | p
  · simpa using hb
  · rcases h2 : readExactUnescaped (crcLen enc) port' with ⟨r2, port''⟩
    have hc : port''.length ≤ port'.length := by
      have := readExactUnescaped_length (crcLen enc) port'
      rw [h2] at this
      exact this
    simp only [h2]
    rcases r2 with e | l <;> simp <;> omega

/-- The subpacket loop never grows the remaining input. -/
theorem readSubpacketAux_length (enc : Encoding) (buf : List Nat) (port : Port) :
    (readSubpacketAux enc buf port).snd.snd.length ≤ port.length := by
  induction buf, port using readSubpacketAux.induct enc with
  | case1 buf => simp [readSubpacketAux]
  | case2 buf b hb =>
    rw [readSubpacketAux.eq_def]
    simp [hb]
  | case3 buf b hb c t p hp =>
    rw [readSubpacketAux.eq_def]
    simp [hb, hp]
    omega
  | case4 buf b hb c t hp buf2 hcap p port' hskip =>
    have hcap2 : (buf ++ [unzdleOf (c % 256)]).length = BUFFER_SIZE := hcap
    have hlen := skipSubpacketTail_length enc t
    rw [hskip] at hlen
    simp at hlen
    rw [readSubpacketAux.eq_def]
    simp only [hb, hp, if_true, eq_self_iff_true, hcap2, hskip]
    simp
    omega
  | case5 buf b hb c t hp buf2 hcap e port' hskip =>
    have hcap2 : (buf ++ [unzdleOf (c % 256)]).length = BUFFER_SIZE := hcap
    have hlen := skipSubpacketTail_length enc t
    rw [hskip] at hlen
    simp at hlen
    rw [readSubpacketAux.eq_def]
    simp only [hb, hp, if_true, eq_self_iff_true, hcap2, hskip]
    simp
    omega
  | case6 buf b hb c t hp buf2 hcap ih =>
    have hcap2 : ¬ (buf ++ [unzdleOf (c % 256)]).length = BUFFER_SIZE := hcap
    rw [readSubpacketAux.eq_def]
    simp only [hb, hp, if_true, eq_self_iff_true, if_neg hcap2]
    refine le_trans ih ?_
    simp
    omega
  | case7 buf b rest hb buf2 hcap p port' hskip =>
    have hcap2 : (buf ++ [b % 256]).length = BUFFER_SIZE := hcap
    have hlen := skipSubpacketTail_length enc rest
    rw [hskip] at hlen
    simp at hlen
    rw [readSubpacketAux.eq_def]
    simp only [if_neg hb, hcap2, eq_self_iff_true, if_true, hskip]
    simp
    omega
  | case8 buf b rest hb buf2 hcap e port' hskip =>
    have hcap2 : (buf ++ [b % 256]).length = BUFFER_SIZE := hcap
    have hlen := skipSubpacketTail_length enc rest
    rw [hskip] at hlen
    simp at hlen
    rw [readSubpacketAux.eq_def]
    simp only [if_neg hb, hcap2, eq_self_iff_true, if_true, hskip]
    simp
    omega
  | case9 buf b rest hb buf2 hcap ih =>
    have hcap2 : ¬ (buf ++ [b % 256]).length = BUFFER_SIZE := hcap
    rw [readSubpacketAux.eq_def]
    simp only [if_neg hb, if_neg hcap2]
    refine le_trans ih ?_
    simp

/-- On normal termination of the subpacket loop, the buffer growth is
bounded by the bytes consumed. -/
theorem readSubpacketAux_finished (enc : Encoding) (buf : List Nat) (port : Port) :
    ∀ p buf' port', readSubpacketAux enc buf port = (.ok (.finished p), buf', port') →
      buf'.length + port'.length ≤ buf.length + port.length := by
  induction buf, port using readSubpacketAux.induct enc with
  | case1 buf =>
    intro p buf' port' h
    simp [readSubpacketAux] at h
  | case2 buf b hb =>
    intro p buf' port' h
    rw [readSubpacketAux.eq_def] at h
    simp [hb] at h
  | case3 buf b hb c t p0 hp =>
    intro p buf' port' h
    rw [readSubpacketAux.eq_def] at h
    simp [hb, hp] at h
    obtain ⟨h1, h2, h3⟩ := h
    subst h2
    subst h3
    simp
    omega
  | case4 buf b hb c t hp buf2 hcap p0 port0 hskip =>
    intro p buf' port' h
    have hcap2 : (buf ++ [unzdleOf (c % 256)]).length = BUFFER_SIZE := hcap
    rw [readSubpacketAux.eq_def] at h
    simp only [hb, hp, hcap2, eq_self_iff_true, if_true, hskip] at h
    simp at h
  | case5 buf b hb c t hp buf2 hcap e port0 hskip =>
    intro p buf' port' h
    have hcap2 : (buf ++ [unzdleOf (c % 256)]).length = BUFFER_SIZE := hcap
    rw [readSubpacketAux.eq_def] at h
    simp only [hb, hp, hcap2, eq_self_iff_true, if_true, hskip] at h
    simp at h
  | case6 buf b hb c t hp buf2 hcap ih =>
    intro p buf' port' h
    have hcap2 : ¬ (buf ++ [unzdleOf (c % 256)]).length = BUFFER_SIZE := hcap
    rw [readSubpacketAux.eq_def] at h
    simp only [hb, hp, eq_self_iff_true, if_true, if_neg hcap2] at h
    have h2 : buf'.length + port'.length ≤ (buf ++ [unzdleOf (c % 256)]).length + t.length :=
      ih p buf' port' h
    simp at h2
    simp
    omega
  | case7 buf b rest hb buf2 hcap p0 port0 hskip =>
    intro p buf' port' h
    have hcap2 : (buf ++ [b % 256]).length = BUFFER_SIZE := hcap
    rw [readSubpacketAux.eq_def] at h
    simp only [if_neg hb, hcap2, eq_self_iff_true, if_true, hskip] at h
    simp at h
  | case8 buf b rest hb buf2 hcap e port0 hskip =>
    intro p buf' port' h
    have hcap2 : (buf ++ [b % 256]).length = BUFFER_SIZE := hcap
    rw [readSubpacketAux.eq_def] at h
    simp only [if_neg hb, hcap2, eq_self_iff_true, if_true, hskip] at h
    simp at h
  | case9 buf b rest hb buf2 hcap ih =>
    intro p buf' port' h
    have hcap2 : ¬ (buf ++ [b % 256]).length = BUFFER_SIZE := hcap
    rw [readSubpacketAux.eq_def] at h
    simp only [if_neg hb, if_neg hcap2] at h
    have h2 : buf'.length + port'.length ≤ (buf ++ [b % 256]).length + rest.length :=
      ih p buf' port' h
    simp at h2
    simp
    omega

/-- The overflow path of the subpacket loop always hands back an empty
buffer (`buf.set_len(0)` in the source). -/
theorem readSubpacketAux_overflow_nil (enc : Encoding) (buf : List Nat) (port : Port) :
    ∀ p buf' port', readSubpacketAux enc buf port = (.ok (.overflow p), buf', port') →
      buf' = [] := by
  induction buf, port using readSubpacketAux.induct enc with
  | case1 buf =>
    intro p buf' port' h
    simp [readSubpacketAux] at h
  | case2 buf b hb =>
    intro p buf' port' h
    rw [readSubpacketAux.eq_def] at h
    simp [hb] at h
  | case3 buf b hb c t p0 hp =>
    intro p buf' port' h
    rw [readSubpacketAux.eq_def] at h
    simp [hb, hp] at h
  | case4 buf b hb c t hp buf2 hcap p0 port0 hskip =>
    intro p buf' port' h
    have hcap2 : (buf ++ [unzdleOf (c % 256)]).length = BUFFER_SIZE := hcap
    rw [readSubpacketAux.eq_def] at h
    simp only [hb, hp, hcap2, eq_self_iff_true, if_true, hskip] at h
    simp at h
    exact h.2.1
  | case5 buf b hb c t hp buf2 hcap e port0 hskip =>
    intro p buf' port' h
    have hcap2 : (buf ++ [unzdleOf (c % 256)]).length = BUFFER_SIZE := hcap
    rw [readSubpacketAux.eq_def] at h
    simp only [hb, hp, hcap2, eq_self_iff_true, if_true, hskip] at h
    simp at h
  | case6 buf b hb c t hp buf2 hcap ih =>
    intro p buf' port' h
    have hcap2 : ¬ (buf ++ [unzdleOf (c % 256)]).length = BUFFER_SIZE := hcap
    rw [readSubpacketAux.eq_def] at h
    simp only [hb, hp, eq_self_iff_true, if_true, if_neg hcap2] at h
    exact ih p buf' port' h
  | case7 buf b rest hb buf2 hcap p0 port0 hskip =>
    intro p buf' port' h
    have hcap2 : (buf ++ [b % 256]).length = BUFFER_SIZE := hcap
    rw [readSubpacketAux.eq_def] at h
    simp only [if_neg hb, hcap2, eq_self_iff_true, if_true, hskip] at h
    simp at h
    exact h.2.1
  | case8 buf b rest hb buf2 hcap e port0 hskip =>
    intro p buf' port' h
    have hcap2 : (buf ++ [b % 256]).length = BUFFER_SIZE := hcap
    rw [readSubpacketAux.eq_def] at h
    simp only [if_neg hb, hcap2, eq_self_iff_true, if_true, hskip] at h
    simp at h
  | case9 buf b rest hb buf2 hcap ih =>
    intro p buf' port' h
    have hcap2 : ¬ (buf ++ [b % 256]).length = BUFFER_SIZE := hcap
    rw [readSubpacketAux.eq_def] at h
    simp only [if_neg hb, if_neg hcap2] at h
    exact ih p buf' port' h

/-- `read_subpacket` never grows the remaining input. -/
theorem readSubpacket_length (enc : Encoding) (port : Port) :
    (readSubpacket enc port).snd.snd.length ≤ port.length := by
  rw [readSubpacket]
  rcases ha : readSubpacketAux enc [] port with ⟨r, b, port'⟩
  have h1 : port'.length ≤ port.length := by
    have := readSubpacketAux_length enc [] port
    rw [ha] at this
    exact this
  rcases r with e | s
  · simpa using h1
  · rcases s with p | p
    · simpa using h1
    · rcases h2 : readExactUnescaped (crcLen enc) port' with ⟨r2, port''⟩
      have h3 : port''.length ≤ port'.length := by
        have := readExactUnescaped_length (crcLen enc) port'
        rw [h2] at this
        exact this
      simp only [h2]
      rcases r2 with e | crc
      · simp
        omega
      · rcases hc : checkCrc b crc enc with e | u <;> simp [hc] <;> omega

/-- A successful `read_subpacket` delivers at most as many payload bytes as
it consumed from the input. -/
theorem readSubpacket_ok_length (enc : Encoding) (port : Port) (p : Packet)
    (payload : List Nat) (port' : Port)
    (h : readSubpacket enc port = (.ok p, payload, port')) :
    payload.length + port'.length ≤ port.length := by
  rw [readSubpacket] at h
  rcases ha : readSubpacketAux enc [] port with ⟨r, b, porta⟩
  have h1 : porta.length ≤ port.length := by
    have := readSubpacketAux_length enc [] port
    rw [ha] at this
    exact this
  simp only [ha] at h
  rcases r with e | s
  · simp at h
  · rcases s with p0 | p0
    · have hnil := readSubpacketAux_overflow_nil enc [] port p0 b porta ha
      subst hnil
      simp at h
      obtain ⟨h2, h3, h4⟩ := h
      subst h3
      subst h4
      simpa using h1
    · have hfin := readSubpacketAux_finished enc [] port p0 b porta ha
      simp only [List.length_nil, Nat.zero_add] at hfin
      rcases h2 : readExactUnescaped (crcLen enc) porta with ⟨r2, port''⟩
      have h3 : port''.length ≤ porta.length := by
        have := readExactUnescaped_length (crcLen enc) porta
        rw [h2] at this
        exact this
      simp only [h2] at h
      rcases r2 with e | crc
      · simp at h
      · rcases hc : checkCrc b crc enc with e | u
        · simp only [hc] at h
          simp at h
        · simp only [hc] at h
          simp at h
          obtain ⟨h4, h5, h6⟩ := h
          subst h5
          subst h6
          have : b.dropLast.length ≤ b.length := by
            simp [List.length_dropLast]
          omega

/-- `read_zpad` never grows the remaining input. -/
theorem readZpad_length (port : Port) : (readZpad port).snd.length ≤ port.length := by
  rw [readZpad.eq_def]
  repeat' split
  all_goals try simp_all
  all_goals try simp
  all_goals omega

/-- `Header::read` never grows the remaining input. -/
theorem headerRead_length (port : Port) : (headerRead port).snd.length ≤ port.length := by
  rw [headerRead.eq_def]
  rcases port with _ | ⟨b, rest⟩
  · simp
  · rcases he : encodingFromByte (b % 256) with e | enc
    · simp [he]
    · simp only [he]
      rcases h2 : readExactUnescaped (unescapedSize enc - 1) rest with ⟨r2, port'⟩
      have h3 : port'.length ≤ rest.length := by
        have := readExactUnescaped_length (unescapedSize enc - 1) rest
        rw [h2] at this
        exact this
      rcases r2 with e | outHex
      · simp
        omega
      · rcases hd : (if enc = .ZHEX then hexDecode outHex else Except.ok outHex) with e | out
        · simp [hd]
          omega
        · simp only [hd]
          rcases hc : checkCrc (out.take 5) (out.drop 5) enc with e | u
          · simp [hc]
            omega
          · simp only [hc]
            rcases hf : frameFromByte (out.getD 0 0) with e | fr <;> simp [hf] <;> omega

/-- `read_zfile` never touches the byte count. -/
theorem readZfile_count (enc : Encoding) (st : State) (port : Port) :
    (readZfile enc st port).state.count = st.count := by
  simp only [readZfile]
  repeat' split
  all_goals simp

/-- One pass of the `read_zdata` loop never decreases the count, and the
total growth is bounded by the bytes consumed from the input (so the 32-bit
counter cannot wrap when the count plus the input length is below
`2 ^ 32`). -/
theorem readZdata_count (enc : Encoding) :
    ∀ (fuel : Nat) (st : State) (port : Port),
      st.count + port.length < 4294967296 →
      st.count ≤ (readZdata fuel enc st port).state.count ∧
        (readZdata fuel enc st port).state.count + (readZdata fuel enc st port).port.length
          ≤ st.count + port.length := by
  intro fuel
  induction fuel with
  | zero =>
    intro st port hlt
    simp [readZdata]
  | succ n ih =>
    intro st port hlt
    rcases hsp : readSubpacket enc port with ⟨r, b, port'⟩
    have hport : port'.length ≤ port.length := by
      have := readSubpacket_length enc port
      rw [hsp] at this
      exact this
    rw [readZdata.eq_def]
    simp only [hsp]
    rcases r with e | p
    · rcases e with _ | _ | _
      · rcases hz : headerWrite (znakHeader.withCount st.count) with e | z
        · simp only [hz]
          simp
          omega
        · simp only [hz]
          have hih := ih { st with buf := b } port' (by simp; omega)
          simp at hih ⊢
          exact ⟨hih.1, by omega⟩
      · simp
        omega
      · simp
        omega
    · dsimp only []
      have hbl : b.length + port'.length ≤ port.length :=
        readSubpacket_ok_length enc port p b port' hsp
      have hmod : (st.count + b.length) % 4294967296 = st.count + b.length :=
        Nat.mod_eq_of_lt (by omega)
      rcases hif : (if b.isEmpty then headerWrite (zrposHeader.withCount st.count)
          else Except.ok ([] : List Nat)) with e | out1
      · exfalso
        by_cases hbe : b.isEmpty = true
        · rw [if_pos hbe] at hif
          have hok : headerWrite (zrposHeader.withCount st.count) = Except.ok _ :=
            headerWrite_withCount_zhex .ZRPOS st.count
          rw [hok] at hif
          simp at hif
        · rw [if_neg hbe] at hif
          simp at hif
      · dsimp only []
        split
        case h_1 =>
          rcases hz : headerWrite
              (zackHeader.withCount ((st.count + b.length) % 4294967296)) with e | z <;>
            (simp only [hz, hmod]; simp; omega)
        case h_2 =>
          simp [hmod]
          omega
        case h_3 =>
          rcases hz : headerWrite
              (zackHeader.withCount ((st.count + b.length) % 4294967296)) with e | z
          · simp only [hz, hmod]
            simp
            omega
          · simp only [hz, hmod]
            have hih := ih ⟨st.stage, st.count + b.length, st.fileName, st.fileSize, b⟩
              port' (by simp; omega)
            simp at hih ⊢
            exact ⟨by omega, by omega⟩
        case h_4 =>
          simp only [hmod]
          have hih := ih ⟨st.stage, st.count + b.length, st.fileName, st.fileSize, b⟩
            port' (by simp; omega)
          simp at hih ⊢
          exact ⟨by omega, by omega⟩

/-- Claim C1 counterexample input: a `ZDATA` frame at offset 0 followed by a
single-byte `ZCRCE` subpacket, exactly as a sender would emit them. -/
def c1Input : List Nat :=
  okD (headerWrite (zdataHeader.withCount 0)) ++
    someD (writeSubpacket .ZBIN32 .ZCRCE [0x41])

/-- Claim C1 counterexample state: a receiver in stage `Ready` with an
advertised file size of zero. -/
def c1State : State := ⟨.Ready, 0, [], 0, []⟩

/-- Claim C1 counterexample: a successful receive turn whose resulting count
exceeds the advertised file size — `read_zdata` never consults
`state.file_size` when accepting payload bytes. -/
theorem claim_C1_counterexample :
    (receive c1Input c1State).result = .ok () ∧
      ¬ ((receive c1Input c1State).state.count ≤ (receive c1Input c1State).state.fileSize) := by
  constructor
  · decide
  · decide

/-- Claim C1, amended: for every successful receive turn the resulting
`state.count` is at least the previous `state.count`, for every input byte
stream the transport may deliver, provided the previous count plus the
number of delivered bytes stays below `2 ^ 32` (so that the 32-bit counter
cannot wrap). The bound `count ≤ file_size` claimed by the specification
does not hold: the receiver never checks the advertised size. -/
theorem claim_C1 (port : Port) (st : State)
    (hno : st.count + port.length < 4294967296)
    (hok : (receive port st).result = .ok ()) :
    st.count ≤ (receive port st).state.count := by
  obtain ⟨o0, ho0⟩ : ∃ o, (if st.stage = .Waiting then writeZrinit
      else Except.ok ([] : List Nat)) = .ok o := by
    by_cases hst : st.stage = .Waiting <;> simp [hst] <;> exact ⟨_, rfl⟩
  obtain ⟨zr, hzr⟩ : ∃ z, writeZrinit = Except.ok z := ⟨_, rfl⟩
  obtain ⟨zn, hzn⟩ : ∃ z, headerWrite znakHeader = Except.ok z := ⟨_, rfl⟩
  obtain ⟨zf, hzf⟩ : ∃ z, headerWrite zfinHeader = Except.ok z := ⟨_, rfl⟩
  simp only [receive, ho0]
  try dsimp only []
  rcases hzp : readZpad port with ⟨rz, port1⟩
  try rw [hzp]
  have hl1 : port1.length ≤ port.length := by
    have := readZpad_length port
    rw [hzp] at this
    exact this
  rcases rz with e | u
  · simp
  · try dsimp only []
    rcases hh : headerRead port1 with ⟨rh, port2⟩
    try rw [hh]
    have hl2 : port2.length ≤ port1.length := by
      have := headerRead_length port1
      rw [hh] at this
      exact this
    rcases rh with e | hdr
    · try dsimp only []
      simp [hzn]
    · try dsimp only []
      cases hf : hdr.frame
      all_goals try (dsimp only []; simp; done)
      case ZFILE =>
        dsimp only []
        cases hst : st.stage <;> dsimp only [] <;> try (simp; done)
        all_goals split
        all_goals simp [readZfile_count]
      case ZDATA =>
        dsimp only []
        cases hst : st.stage <;> dsimp only [] <;> try (simp; done)
        case Waiting => simp [hzr]
        all_goals split
        all_goals try (simp [Header.withCount, zrposHeader, headerWrite_withCount_zhex]; done)
        all_goals
          have hcm := (readZdata_count hdr.encoding (port2.length + 1) st port2 (by omega)).1
        all_goals split
        all_goals (simp; omega)
      case ZEOF =>
        dsimp only []
        cases hst : st.stage <;> dsimp only [] <;> try (simp; done)
        split <;> simp [hzr]
      case ZFIN =>
        dsimp only []
        cases hst : st.stage <;> dsimp only [] <;> try (simp; done)
        simp [hzf]

/-- Witness for amended claim C1: the counterexample turn is itself a
successful turn whose count does not decrease. -/
theorem claim_C1_witness :
    c1State.count + c1Input.length < 4294967296 ∧
      (receive c1Input c1State).result = .ok () ∧
      c1State.count ≤ (receive c1Input c1State).state.count :=
  ⟨by decide, by decide, claim_C1 c1Input c1State (by decide) (by decide)⟩

end Zmodem
